import Mathlib

/-!
Verification of the pinocchio stake program core

Shallow embedding of the stake program's dispatcher, wire decoder, merge
classifier, merge/withdraw/delegate handlers and the SHA-256 primitive,
with theorems settling the claims about them.

Conventions:
* `u64` fields (stored as `[u8; 8]` little-endian in the source and converted
  through `bytes_to_u64` / `to_le_bytes`, which are mutually inverse) are
  modelled as `Nat` values; arithmetic that the source performs with
  `checked_*` operations is modelled with explicit `≤ U64MAX` guards.
* Public keys (32-byte arrays in the source) are modelled as `Nat`.
* Code compiled only under the `compat_loose_decode` cargo feature is omitted:
  the feature is not enabled by default and the claims are about the default
  build.
* Several helper modules of the crate (`helpers`, `state/delegation.rs`,
  `state/stake_state_v2.rs`, `state/accounts.rs`, `state/stake_flag.rs`,
  `error.rs`) are not present in the tree; their definitions are modelled from
  the specification and marked `Modelled from the spec:` in their doc comments.
  Where a claim does not depend on the value computed by a missing function
  (the warmup/cooldown engine), the embedding is parametrised by an arbitrary
  function in its place, so the theorems hold for every possible behaviour of
  the missing code.
-/

set_option maxRecDepth 100000

namespace PStake

/-- Largest value representable in a `u64`. -/
def U64MAX : Nat := 2 ^ 64 - 1

/-- Public keys, 32-byte values in the source, modelled as `Nat`. -/
abbrev Pubkey := Nat

/-- Modelled from the spec: stake-specific error taxonomy of `error.rs`
(section 7 of the spec; the file is not in the tree). -/
inductive StakeError where
  | alreadyDeactivated
  | insufficientDelegation
  | voteAddressMismatch
  | mergeMismatch
  | lockupInForce
  | tooSoonToRedelegate
  | insufficientReferenceVotes
  | minimumDelinquentEpochsForDeactivationNotMet
  | epochRewardsActive
  deriving DecidableEq, Repr

/-- Generic program errors plus the `Custom` wrapping of stake errors
(section 7 of the spec). -/
inductive ProgramError where
  | notEnoughAccountKeys
  | invalidAccountData
  | invalidAccountOwner
  | incorrectProgramId
  | invalidInstructionData
  | invalidArgument
  | missingRequiredSignature
  | insufficientFunds
  | arithmeticOverflow
  | custom (e : StakeError)
  deriving DecidableEq, Repr

/-- Modelled from the spec: `to_program_error` of the missing `error.rs` wraps
a stake error into the `Custom` program error. -/
def toProgramError (e : StakeError) : ProgramError := .custom e

/-- The clock sysvar: `epoch : u64`, `unix_timestamp : i64`. -/
structure Clock where
  epoch : Nat
  unixTimestamp : Int
  deriving DecidableEq, Repr

/-- Modelled from the spec: `Authorized` of the missing `state/accounts.rs`
(staker / withdrawer role keys). -/
structure Authorized where
  staker : Pubkey
  withdrawer : Pubkey
  deriving DecidableEq, Repr

/-- `Lockup` from `state/state.rs`. -/
structure Lockup where
  unixTimestamp : Int
  epoch : Nat
  custodian : Pubkey
  deriving DecidableEq, Repr

def Lockup.default : Lockup := { unixTimestamp := 0, epoch := 0, custodian := 0 }

/-- `Lockup::is_in_force` from `state/state.rs`: a matching custodian signer
bypasses the lockup; otherwise the lockup is in force while either the time
constraint or the epoch constraint has not passed (0 means no constraint). -/
def Lockup.isInForce (l : Lockup) (clock : Clock) (custodianSigner : Option Pubkey) : Bool :=
  if (match custodianSigner with
      | some sig => decide (sig = l.custodian)
      | none => false) then
    false
  else
    (decide (l.unixTimestamp ≠ 0) && decide (clock.unixTimestamp < l.unixTimestamp)) ||
    (decide (l.epoch ≠ 0) && decide (clock.epoch < l.epoch))

/-- `Meta` from `state/state.rs`: rent-exempt reserve, authorities, lockup. -/
structure Meta where
  rentExemptReserve : Nat
  authorized : Authorized
  lockup : Lockup
  deriving DecidableEq, Repr

/-- Modelled from the spec: `Delegation` of the missing `state/delegation.rs`
(section 3 of the spec). The persisted `warmup_cooldown_rate : f64` is not
modelled; no claim path reads it (the effective rate is chosen by the history
engine, which the embedding abstracts as a parameter). -/
structure Delegation where
  voterPubkey : Pubkey
  stake : Nat
  activationEpoch : Nat
  deactivationEpoch : Nat
  deriving DecidableEq, Repr

/-- Modelled from the spec: the `Stake` payload of the missing
`state/delegation.rs` (a delegation plus `credits_observed`). -/
structure Stake where
  delegation : Delegation
  creditsObserved : Nat
  deriving DecidableEq, Repr

/-- Modelled from the spec: `StakeFlags` of the missing `state/stake_flag.rs`
are bitflags, preserved on merge via set union. -/
abbrev StakeFlags := Nat

def StakeFlags.empty : StakeFlags := 0

def StakeFlags.union (a b : StakeFlags) : StakeFlags := a ||| b

/-- Modelled from the spec: `StakeStateV2` of the missing
`state/stake_state_v2.rs` — the four tagged variants of section 3. -/
inductive StakeStateV2 where
  | uninitialized
  | initialized (meta : Meta)
  | stake (meta : Meta) (stake : Stake) (flags : StakeFlags)
  | rewardsPool
  deriving DecidableEq, Repr

/-- `MergeKind` from `state/merge_kind.rs`. -/
inductive MergeKind where
  | inactive (meta : Meta) (lamports : Nat) (flags : StakeFlags)
  | activationEpoch (meta : Meta) (stake : Stake) (flags : StakeFlags)
  | fullyActive (meta : Meta) (stake : Stake)
  deriving DecidableEq, Repr

/-- `MergeKind::meta` from `state/merge_kind.rs`. -/
def MergeKind.meta : MergeKind → Meta
  | .inactive m _ _ => m
  | .activationEpoch m _ _ => m
  | .fullyActive m _ => m

/-- `MergeKind::active_stake` from `state/merge_kind.rs`. -/
def MergeKind.activeStake : MergeKind → Option Stake
  | .inactive _ _ _ => none
  | .activationEpoch _ s _ => some s
  | .fullyActive _ s => some s

/-- The `(effective, activating, deactivating)` triple computed by the missing
warmup/cooldown engine `Delegation::stake_activating_and_deactivating`. -/
structure StakeStatus where
  effective : Nat
  activating : Nat
  deactivating : Nat
  deriving DecidableEq, Repr

/-- The warmup/cooldown engine of the missing `state/delegation.rs`,
abstracted: embeddings that call it are parametrised by an arbitrary function
from a delegation and a target epoch to a status triple, so theorems hold for
every behaviour of the missing code. -/
abbrev StatusFn := Delegation → Nat → StakeStatus

/-- Modelled from the spec: `checked_add` of the missing `helpers` module —
`u64` checked addition, failing with `ArithmeticOverflow` (as used with
`.ok_or(ProgramError::ArithmeticOverflow)?` at every call site). -/
def checkedAdd (a b : Nat) : Except ProgramError Nat :=
  if a + b ≤ U64MAX then .ok (a + b) else .error .arithmeticOverflow

/-- `u64` checked subtraction, failing with `ArithmeticOverflow`
(`checked_sub(..).ok_or(ProgramError::ArithmeticOverflow)?` in the source). -/
def checkedSub (a b : Nat) : Except ProgramError Nat :=
  if b ≤ a then .ok (a - b) else .error .arithmeticOverflow

/-- `MergeKind::get_if_mergeable` from `state/merge_kind.rs` (lines 49-135),
with the stake-history walk abstracted as `statusFn`. -/
def MergeKind.getIfMergeable (statusFn : StatusFn) (stakeState : StakeStateV2)
    (stakeLamports : Nat) (clock : Clock) : Except ProgramError MergeKind :=
  match stakeState with
  | .stake meta stake flags =>
    let delegated := stake.delegation.stake
    let actEpoch := stake.delegation.activationEpoch
    let deactEpoch := stake.delegation.deactivationEpoch
    if deactEpoch ≠ U64MAX then
      if clock.epoch ≤ deactEpoch then
        .error (toProgramError .mergeMismatch)
      else
        .ok (.inactive meta stakeLamports flags)
    else if delegated > 0 && decide (deactEpoch = U64MAX) && decide (clock.epoch > actEpoch) then
      .ok (.fullyActive meta stake)
    else
      let status := statusFn stake.delegation clock.epoch
      if status.deactivating > 0 then
        .error (toProgramError .mergeMismatch)
      else
        match status.effective, status.activating, status.deactivating with
        | 0, 0, 0 =>
          if delegated > 0 && decide (deactEpoch = U64MAX) then
            if clock.epoch > actEpoch then
              .ok (.fullyActive meta stake)
            else
              .ok (.activationEpoch meta stake flags)
          else
            .ok (.inactive meta stakeLamports flags)
        | 0, _, _ =>
          if delegated > 0 && decide (deactEpoch = U64MAX) && decide (clock.epoch > actEpoch) then
            .ok (.fullyActive meta stake)
          else if status.activating > 0 then
            .ok (.activationEpoch meta stake flags)
          else
            .error (toProgramError .mergeMismatch)
        | effective, 0, 0 =>
          if effective = delegated then
            .ok (.fullyActive meta stake)
          else
            .error (toProgramError .mergeMismatch)
        | _, _, _ => .error (toProgramError .mergeMismatch)
  | .initialized meta => .ok (.inactive meta stakeLamports StakeFlags.empty)
  | _ => .error (toProgramError .mergeMismatch)

/-- `MergeKind::metas_can_merge` from `state/merge_kind.rs` (lines 138-163):
authorities must match; lockups must be equal or both not in force. -/
def MergeKind.metasCanMerge (dest source : Meta) (clock : Clock) :
    Except ProgramError Unit :=
  if dest.authorized ≠ source.authorized then
    .error (toProgramError .mergeMismatch)
  else
    let lockEq := dest.lockup = source.lockup
    let destInForce := dest.lockup.isInForce clock none
    let srcInForce := source.lockup.isInForce clock none
    if lockEq ∨ (!destInForce && !srcInForce) then
      .ok ()
    else
      .error (toProgramError .mergeMismatch)

/-- `MergeKind::active_delegations_can_merge` from `state/merge_kind.rs`
(lines 166-179): same voter and neither deactivating. -/
def MergeKind.activeDelegationsCanMerge (dest source : Delegation) :
    Except ProgramError Unit :=
  if dest.voterPubkey ≠ source.voterPubkey then
    .error (toProgramError .mergeMismatch)
  else if dest.deactivationEpoch = U64MAX ∧ source.deactivationEpoch = U64MAX then
    .ok ()
  else
    .error (toProgramError .mergeMismatch)

/-- Modelled from the spec: `merge_delegation_stake_and_credits_observed` of
the missing `helpers/merge.rs` — section 4.H: the new `credits_observed` is
the stake-weighted ceiling-division
`⌊(dst_stake·dst_credits + absorbed·absorbed_credits + (total − 1)) / total⌋`
with `total = dst_stake + absorbed` (checked `u64` addition; checked division
guards the zero denominator), and the delegated stake is then incremented by
the absorbed amount. -/
def mergeDelegationStakeAndCreditsObserved (stake : Stake)
    (absorbedLamports absorbedCredits : Nat) : Except ProgramError Stake := do
  let total ← checkedAdd stake.delegation.stake absorbedLamports
  if total = 0 then
    .error .arithmeticOverflow
  else
    let newCredits :=
      (stake.delegation.stake * stake.creditsObserved
        + absorbedLamports * absorbedCredits + (total - 1)) / total
    .ok { delegation := { stake.delegation with stake := total },
          creditsObserved := newCredits }

/-- `MergeKind::merge` from `state/merge_kind.rs` (lines 182-261). -/
def MergeKind.merge (self source : MergeKind) (_clock : Clock) :
    Except ProgramError (Option StakeStateV2) := do
  (match self.activeStake, source.activeStake with
   | some dst, some src => MergeKind.activeDelegationsCanMerge dst.delegation src.delegation
   | _, _ => .ok ())
  match self, source with
  | .inactive _ _ _, .inactive _ _ _ => .ok none
  | .inactive dstMeta dstLamports dstFlags, .activationEpoch _ srcStake srcFlags => do
    let newStake ← checkedAdd srcStake.delegation.stake dstLamports
    let srcStake1 := { srcStake with delegation := { srcStake.delegation with stake := newStake } }
    .ok (some (.stake dstMeta srcStake1 (StakeFlags.union dstFlags srcFlags)))
  | .activationEpoch meta stake dstFlags, .inactive _ srcLamports srcFlags => do
    let newStake ← checkedAdd stake.delegation.stake srcLamports
    let stake1 := { stake with delegation := { stake.delegation with stake := newStake } }
    .ok (some (.stake meta stake1 (StakeFlags.union dstFlags srcFlags)))
  | .activationEpoch meta stake dstFlags, .activationEpoch srcMeta srcStake srcFlags => do
    let srcStakeLamports ← checkedAdd srcMeta.rentExemptReserve srcStake.delegation.stake
    let stake1 ← mergeDelegationStakeAndCreditsObserved stake srcStakeLamports
      srcStake.creditsObserved
    .ok (some (.stake meta stake1 (StakeFlags.union dstFlags srcFlags)))
  | .fullyActive meta stake, .fullyActive _ srcStake => do
    let stake1 ← mergeDelegationStakeAndCreditsObserved stake srcStake.delegation.stake
      srcStake.creditsObserved
    .ok (some (.stake meta stake1 StakeFlags.empty))
  | _, _ => .error (toProgramError .mergeMismatch)

/-- An account as the merge/withdraw/delegate handlers see it: its decoded
stake state (the byte-level codec of `get_stake_state` / `set_stake_state` of
the missing `helpers` module is modelled as direct field access) and its
lamport balance. -/
structure Account where
  state : StakeStateV2
  lamports : Nat
  deriving DecidableEq, Repr

/-- Modelled from the spec: `relocate_lamports` of the missing `helpers`
module — checked subtraction from the source balance and checked addition to
the destination balance (lamport bookkeeping of section 6). Returns the
updated `(source, destination)` pair. -/
def relocateLamports (src dst : Account) (amount : Nat) :
    Except ProgramError (Account × Account) := do
  let newSrc ← checkedSub src.lamports amount
  let newDst ← checkedAdd dst.lamports amount
  .ok ({ src with lamports := newSrc }, { dst with lamports := newDst })

/-- The inline merge computation of `process_merge`
(`instruction/merge_dedicated.rs` lines 164-219): given the two
classifications and the two account balances, the state written to the
destination (`none` in the Inactive+Inactive case, where the destination is
left unchanged). Any unsupported shape pair is a `MergeMismatch`. -/
def inlineDstState (dstKind srcKind : MergeKind) (dstLamports srcLamports : Nat) :
    Except ProgramError (Option StakeStateV2) :=
  match dstKind, srcKind with
  | .inactive _ _ _, .inactive _ _ _ => .ok none
  | .inactive dstMeta _ dstFlags, .activationEpoch _ srcStake srcFlags => do
    let totalPost ← checkedAdd dstLamports srcLamports
    let newStake ← checkedSub totalPost dstMeta.rentExemptReserve
    let stakeOut := { srcStake with delegation := { srcStake.delegation with stake := newStake } }
    .ok (some (.stake dstMeta stakeOut (StakeFlags.union dstFlags srcFlags)))
  | .activationEpoch meta stake dstFlags, .inactive _ srcKindLamports srcFlags => do
    let newStake ← checkedAdd stake.delegation.stake srcKindLamports
    let stake1 := { stake with delegation := { stake.delegation with stake := newStake } }
    .ok (some (.stake meta stake1 (StakeFlags.union dstFlags srcFlags)))
  | .activationEpoch dstMeta dstStake dstFlags, .activationEpoch srcMeta srcStake srcFlags => do
    let srcStakeLamports ← checkedAdd srcMeta.rentExemptReserve srcStake.delegation.stake
    let dstStake1 ← mergeDelegationStakeAndCreditsObserved dstStake srcStakeLamports
      srcStake.creditsObserved
    .ok (some (.stake dstMeta dstStake1 (StakeFlags.union dstFlags srcFlags)))
  | .fullyActive dstMeta dstStake, .fullyActive _ srcStake => do
    let dstStake1 ← mergeDelegationStakeAndCreditsObserved dstStake srcStake.delegation.stake
      srcStake.creditsObserved
    .ok (some (.stake dstMeta dstStake1 StakeFlags.empty))
  | _, _ => .error (toProgramError .mergeMismatch)

/-- The tail of every successful `process_merge` branch: write the computed
destination state (when any), set the source to `Uninitialized`, then drain
all source lamports into the destination. Returns the updated
`(destination, source)` pair. -/
def mergeBranchesAccounts (dstKind srcKind : MergeKind) (dst src : Account) :
    Except ProgramError (Account × Account) := do
  let stOpt ← inlineDstState dstKind srcKind dst.lamports src.lamports
  let dst1 := match stOpt with
    | some st => { dst with state := st }
    | none => dst
  let src1 := { src with state := StakeStateV2.uninitialized }
  let (src2, dst2) ← relocateLamports src1 dst1 src1.lamports
  .ok (dst2, src2)

/-- The classification-with-fallback of `process_merge`
(`instruction/merge_dedicated.rs` lines 77-99 for the destination and 128-149
for the source): on any classification error, an `Initialized` account is
treated as `Inactive`, a `Stake` account past a scheduled deactivation is
treated as `Inactive`, and everything else is a `MergeMismatch`. -/
def classifyWithFallback (statusFn : StatusFn) (state : StakeStateV2)
    (lamports : Nat) (clock : Clock) : Except ProgramError MergeKind :=
  match MergeKind.getIfMergeable statusFn state lamports clock with
  | .ok k => .ok k
  | .error _ =>
    match state with
    | .initialized meta => .ok (.inactive meta lamports StakeFlags.empty)
    | .stake meta stake flags =>
      if stake.delegation.deactivationEpoch ≠ U64MAX ∧
          stake.delegation.deactivationEpoch < clock.epoch then
        .ok (.inactive meta lamports flags)
      else
        .error (toProgramError .mergeMismatch)
    | _ => .error (toProgramError .mergeMismatch)

/-- The account-shape facts `process_merge` checks before touching state;
each field holds the result of the corresponding runtime check. -/
structure MergeEnv where
  dst : Account
  src : Account
  clock : Clock
  signers : List Pubkey
  enoughAccounts : Bool
  distinctKeys : Bool
  ownersOk : Bool
  bothWritable : Bool
  historyKeyOk : Bool
  sizesOk : Bool
  deriving Repr

/-- `process_merge` from `instruction/merge_dedicated.rs` (lines 42-219):
shape checks, classification of both accounts (with fallback), staker
authorization, metadata compatibility, then the inline merge; on success the
source is set `Uninitialized` and fully drained into the destination.
Returns the updated `(destination, source)` pair. -/
def processMerge (statusFn : StatusFn) (env : MergeEnv) :
    Except ProgramError (Account × Account) :=
  if !env.enoughAccounts then .error .notEnoughAccountKeys
  else if !env.distinctKeys then .error .invalidArgument
  else if !env.ownersOk then .error .invalidAccountOwner
  else if !env.bothWritable then .error .invalidInstructionData
  else if !env.historyKeyOk then .error .invalidInstructionData
  else if !env.sizesOk then .error .invalidAccountData
  else do
    let dstKind ← classifyWithFallback statusFn env.dst.state env.dst.lamports env.clock
    if !(env.signers.any fun s => s = dstKind.meta.authorized.staker) then
      .error .missingRequiredSignature
    else do
      let srcKind ← classifyWithFallback statusFn env.src.state env.src.lamports env.clock
      let _ ← MergeKind.metasCanMerge dstKind.meta srcKind.meta env.clock
      mergeBranchesAccounts dstKind srcKind env.dst env.src

/-- Concrete status function for witnesses: history reports all zeros. -/
def statusZeroW : StatusFn := fun _ _ => ⟨0, 0, 0⟩

/-- Concrete meta for the merge witness. -/
def mergeMetaW : Meta :=
  { rentExemptReserve := 1, authorized := ⟨2, 3⟩, lockup := Lockup.default }

/-- Concrete environment for the merge witness: two `Initialized` accounts
with identical metadata (classified Inactive+Inactive), staker signing. -/
def mergeEnvW : MergeEnv :=
  { dst := { state := .initialized mergeMetaW, lamports := 10 }
    src := { state := .initialized mergeMetaW, lamports := 5 }
    clock := { epoch := 4, unixTimestamp := 100 }
    signers := [2]
    enoughAccounts := true, distinctKeys := true, ownersOk := true
    bothWritable := true, historyKeyOk := true, sizesOk := true }

/-- Meta with rent-exempt reserve 10, for the refinement counterexample. -/
def mergeMetaW10 : Meta := { mergeMetaW with rentExemptReserve := 10 }

/-- Modelled from the spec: `Authorized::check` of the missing
`state/accounts.rs` — the key of the checked role must be among the signers
("Staker must sign" / "Must have withdraw authority"), else
`MissingRequiredSignature`. -/
def authorizedCheckStaker (a : Authorized) (signers : List Pubkey) :
    Except ProgramError Unit :=
  if signers.contains a.staker then .ok () else .error .missingRequiredSignature

/-- Modelled from the spec: `Authorized::check` for the withdrawer role. -/
def authorizedCheckWithdrawer (a : Authorized) (signers : List Pubkey) :
    Except ProgramError Unit :=
  if signers.contains a.withdrawer then .ok () else .error .missingRequiredSignature

/-- Modelled from the spec: `validate_delegated_amount` of the missing
`helpers` module — the delegated amount is the account's lamports minus the
rent-exempt reserve (saturating), and must reach the minimum delegation
(section 4.H Delegate), else `InsufficientDelegation`. -/
def validateDelegatedAmount (lamports reserve minDelegation : Nat) :
    Except ProgramError Nat :=
  let stakeAmount := lamports - reserve
  if stakeAmount < minDelegation then
    .error (toProgramError .insufficientDelegation)
  else
    .ok stakeAmount

/-- Modelled from the spec: `new_stake_with_credits` of the missing `helpers`
module — a fresh delegation to the vote account with `activation_epoch` set to
the current epoch, no deactivation scheduled, and `credits_observed` taken
from the vote account (section 4.H Delegate, `Initialized` case). -/
def newStakeWithCredits (stakeAmount : Nat) (voter : Pubkey) (epoch : Nat)
    (voteCredits : Nat) : Stake :=
  { delegation :=
      { voterPubkey := voter
        stake := stakeAmount
        activationEpoch := epoch
        deactivationEpoch := U64MAX }
    creditsObserved := voteCredits }

/-- Modelled from the spec: `redelegate_stake_with_credits` of the missing
`helpers` module — section 4.H Delegate, `Stake` case: if a deactivation is
scheduled and the target vote equals the current voter, the deactivation is
rescinded (`deactivation_epoch = MAX`, everything else untouched); otherwise
stake that is still effective may not redelegate (`TooSoonToRedelegate`), and
an inactive stake is re-delegated afresh, updating `credits_observed`, the
delegated stake and the epochs. The effective-stake computation of the
missing history engine is the `effStakeFn` parameter. -/
def redelegateStakeWithCredits (effStakeFn : Delegation → Nat → Nat)
    (stake : Stake) (stakeAmount : Nat) (voter : Pubkey) (voteCredits : Nat)
    (epoch : Nat) : Except ProgramError Stake :=
  if stake.delegation.deactivationEpoch ≠ U64MAX ∧
      stake.delegation.voterPubkey = voter then
    .ok { stake with delegation := { stake.delegation with deactivationEpoch := U64MAX } }
  else if effStakeFn stake.delegation epoch ≠ 0 then
    .error (toProgramError .tooSoonToRedelegate)
  else
    .ok (newStakeWithCredits stakeAmount voter epoch voteCredits)

/-- The resolved inputs of `process_delegate`: the stake account, the vote
account's key and credits, the clock and the transaction signers. -/
structure DelegateEnv where
  stakeAccount : Account
  voteKey : Pubkey
  voteCredits : Nat
  clock : Clock
  signers : List Pubkey
  deriving Repr

/-- `process_delegate` from `instruction/process_delegate.rs` (lines 65-127),
after account resolution: the state-machine core over the stake account's
state, returning the new stake-account state. `minDelegation` stands for the
`get_minimum_delegation()` constant of the missing `helpers` module. -/
def processDelegate (minDelegation : Nat) (effStakeFn : Delegation → Nat → Nat)
    (env : DelegateEnv) : Except ProgramError StakeStateV2 :=
  match env.stakeAccount.state with
  | .initialized meta => do
    let _ ← authorizedCheckStaker meta.authorized env.signers
    let stakeAmount ← validateDelegatedAmount env.stakeAccount.lamports
      meta.rentExemptReserve minDelegation
    let stake := newStakeWithCredits stakeAmount env.voteKey env.clock.epoch env.voteCredits
    .ok (.stake meta stake StakeFlags.empty)
  | .stake meta stake flags => do
    let _ ← authorizedCheckStaker meta.authorized env.signers
    let stakeAmount ← validateDelegatedAmount env.stakeAccount.lamports
      meta.rentExemptReserve minDelegation
    if stake.delegation.deactivationEpoch ≠ U64MAX ∧
        stake.delegation.voterPubkey ≠ env.voteKey then
      .error (toProgramError .tooSoonToRedelegate)
    else do
      let stake1 ← redelegateStakeWithCredits effStakeFn stake stakeAmount
        env.voteKey env.voteCredits env.clock.epoch
      .ok (.stake meta stake1 flags)
  | _ => .error .invalidAccountData

/-- An effect of the withdraw handler, recorded in execution order: a state
write to the stake account, or a lamport move to the destination. -/
inductive WithdrawEvent where
  | setState (st : StakeStateV2)
  | move (amount : Nat)
  deriving DecidableEq, Repr

/-- The resolved inputs of `process_withdraw`: the stake account (with its
signer bit, used for the `Uninitialized` path), the destination, the clock
and the transaction signers. -/
structure WithdrawEnv where
  source : Account
  sourceIsSigner : Bool
  dest : Account
  clock : Clock
  signers : List Pubkey
  deriving Repr

/-- The `staked` amount `process_withdraw` computes for a `Stake` account
(`instruction/withdraw.rs` lines 96-110): the full delegated stake up to and
including the deactivation epoch, the history-engine figure afterwards. -/
def withdrawStaked (effStakeFn : Delegation → Nat → Nat) (stake : Stake)
    (clock : Clock) : Nat :=
  let deact := stake.delegation.deactivationEpoch
  if deact ≠ U64MAX ∧ clock.epoch = deact then
    stake.delegation.stake
  else if deact ≠ U64MAX ∧ deact < clock.epoch then
    effStakeFn stake.delegation clock.epoch
  else
    stake.delegation.stake

/-- The custodian argument `process_withdraw` passes to
`Lockup::is_in_force` (`instruction/withdraw.rs` lines 139-142): the
lockup's custodian when it is among the signers. -/
def custodianOpt (lockup : Lockup) (signers : List Pubkey) : Option Pubkey :=
  if signers.contains lockup.custodian then some lockup.custodian else none

/-- `process_withdraw` from `instruction/withdraw.rs` (lines 59-175), after
account resolution: returns the updated `(source, destination)` pair together
with the ordered effect trace (state writes before lamport moves on the
full-drain path). The history-engine figure is the `effStakeFn` parameter. -/
def processWithdraw (effStakeFn : Delegation → Nat → Nat) (env : WithdrawEnv)
    (withdrawLamports : Nat) :
    Except ProgramError (Account × Account × List WithdrawEvent) :=
  match env.source.state with
  | .uninitialized =>
    if !env.sourceIsSigner then
      .error .missingRequiredSignature
    else do
      let (src1, dst1) ← relocateLamports env.source env.dest withdrawLamports
      .ok (src1, dst1, [.move withdrawLamports])
  | _ => do
    let info ← (match env.source.state with
      | .stake meta stake _flags => do
        let _ ← authorizedCheckWithdrawer meta.authorized env.signers
        let staked := withdrawStaked effStakeFn stake env.clock
        let stakedPlusReserve ← checkedAdd staked meta.rentExemptReserve
        .ok (meta.lockup, stakedPlusReserve, staked != 0)
      | .initialized meta => do
        let _ ← authorizedCheckWithdrawer meta.authorized env.signers
        .ok (meta.lockup, meta.rentExemptReserve, false)
      | .uninitialized =>
        if !env.sourceIsSigner then
          .error .missingRequiredSignature
        else
          .ok (Lockup.default, 0, false)
      | _ => .error .invalidAccountData :
        Except ProgramError (Lockup × Nat × Bool))
    let lockup := info.1
    let reserve := info.2.1
    let isStaked := info.2.2
    if lockup.isInForce env.clock (custodianOpt lockup env.signers) then
      .error (toProgramError .lockupInForce)
    else
      let stakeAccountLamports := env.source.lamports
      if withdrawLamports = stakeAccountLamports then
        if isStaked then
          .error .insufficientFunds
        else do
          let src1 := { env.source with state := StakeStateV2.uninitialized }
          let (src2, dst2) ← relocateLamports src1 env.dest withdrawLamports
          .ok (src2, dst2, [.setState .uninitialized, .move withdrawLamports])
      else do
        let withdrawPlusReserve ← checkedAdd withdrawLamports reserve
        if withdrawPlusReserve > stakeAccountLamports then
          .error .insufficientFunds
        else do
          let (src2, dst2) ← relocateLamports env.source env.dest withdrawLamports
          .ok (src2, dst2, [.move withdrawLamports])

/-- The byte reader `R` of `wire_sbf` (`entrypoint.rs` lines 541-570):
`take` fails with `InvalidInstructionData` when fewer than `n` bytes remain
(`rem` is a saturating subtraction). Returns the bytes and the new offset. -/
def rtake (b : List Nat) (off n : Nat) : Except ProgramError (List Nat × Nat) :=
  if b.length - off < n then .error .invalidInstructionData
  else .ok ((b.drop off).take n, off + n)

/-- Little-endian value of a byte list (first byte least significant). -/
def leVal (bytes : List Nat) : Nat :=
  bytes.foldr (fun b acc => b + 256 * acc) 0

/-- `R::u8`. -/
def readU8 (b : List Nat) (off : Nat) : Except ProgramError (Nat × Nat) := do
  let (bs, o) ← rtake b off 1
  .ok (leVal bs, o)

/-- `R::u32` (the bincode enum variant tag is read this way). -/
def readU32 (b : List Nat) (off : Nat) : Except ProgramError (Nat × Nat) := do
  let (bs, o) ← rtake b off 4
  .ok (leVal bs, o)

/-- `R::u64`; `R::i64` reads the same 8 bytes (the embedding keeps the raw
little-endian value, the two's-complement reinterpretation plays no role in
any decoding path). -/
def readU64 (b : List Nat) (off : Nat) : Except ProgramError (Nat × Nat) := do
  let (bs, o) ← rtake b off 8
  .ok (leVal bs, o)

/-- `R::bool`: one byte, non-zero means true. -/
def readBool (b : List Nat) (off : Nat) : Except ProgramError (Bool × Nat) := do
  let (v, o) ← readU8 b off
  .ok (v != 0, o)

/-- `R::pubkey`: 32 raw bytes. -/
def readPubkeyBytes (b : List Nat) (off : Nat) : Except ProgramError (List Nat × Nat) :=
  rtake b off 32

/-- `R::opt_u64` / `R::opt_i64`: a one-byte tag, then the value when 1. -/
def readOptU64 (b : List Nat) (off : Nat) : Except ProgramError (Option Nat × Nat) := do
  let (tag, o) ← readBool b off
  if tag then
    let (v, o2) ← readU64 b o
    .ok (some v, o2)
  else
    .ok (none, o)

/-- `R::opt_pubkey`. -/
def readOptPubkey (b : List Nat) (off : Nat) :
    Except ProgramError (Option (List Nat) × Nat) := do
  let (tag, o) ← readBool b off
  if tag then
    let (v, o2) ← readPubkeyBytes b o
    .ok (some v, o2)
  else
    .ok (none, o)

/-- `R::string_bytes`: a `u64` length then that many raw bytes. -/
def readStringBytes (b : List Nat) (off : Nat) :
    Except ProgramError (List Nat × Nat) := do
  let (len, o) ← readU64 b off
  rtake b o len

/-- `R::stake_auth`: a `u32`, 0 = Staker, 1 = Withdrawer, else
`InvalidInstructionData`. -/
inductive WStakeAuthorize where
  | staker
  | withdrawer
  deriving DecidableEq, Repr

def readStakeAuth (b : List Nat) (off : Nat) :
    Except ProgramError (WStakeAuthorize × Nat) := do
  let (v, o) ← readU32 b off
  match v with
  | 0 => .ok (.staker, o)
  | 1 => .ok (.withdrawer, o)
  | _ => .error .invalidInstructionData

/-- The wire-level `StakeInstruction` of `wire_sbf` (`entrypoint.rs` lines
519-539); pubkeys are kept as their raw 32 bytes, `i64` fields as raw
little-endian values. -/
inductive WireInstruction where
  | initializeArgs (staker withdrawer : List Nat) (lockupTs lockupEpoch : Nat) (custodian : List Nat)
  | authorize (newAuthorized : List Nat) (which : WStakeAuthorize)
  | delegateStake
  | split (lamports : Nat)
  | withdraw (lamports : Nat)
  | deactivate
  | setLockup (unixTimestamp : Option Nat) (epoch : Option Nat) (custodian : Option (List Nat))
  | merge
  | authorizeWithSeed (newAuthorized : List Nat) (which : WStakeAuthorize)
      (seed : List Nat) (owner : List Nat)
  | initializeChecked
  | authorizeChecked (which : WStakeAuthorize)
  | authorizeCheckedWithSeed (which : WStakeAuthorize) (seed : List Nat) (owner : List Nat)
  | setLockupChecked (unixTimestamp : Option Nat) (epoch : Option Nat)
  | getMinimumDelegation
  | deactivateDelinquent
  | redelegate
  | moveStake (lamports : Nat)
  | moveLamports (lamports : Nat)
  deriving DecidableEq, Repr

/-- `wire_sbf::deserialize` from `entrypoint.rs` (lines 572-671), with the
`compat_loose_decode` feature disabled: empty data decodes to
`DeactivateDelinquent`; nonempty data shorter than 4 bytes is
`InvalidInstructionData`; otherwise the 4-byte little-endian variant tag
selects the fields to read. Variants 18-21 decode to `DeactivateDelinquent`
("tolerance for variant drift") and every other unknown variant falls back to
parsing `SetLockupChecked` fields; no check rejects trailing bytes. -/
def wireSbfDeserialize (data : List Nat) : Except ProgramError WireInstruction :=
  if data = [] then .ok .deactivateDelinquent
  else if data.length < 4 then .error .invalidInstructionData
  else do
    let (variant, off) ← readU32 data 0
    match variant with
    | 0 => do
      let (staker, o1) ← readPubkeyBytes data off
      let (withdrawer, o2) ← readPubkeyBytes data o1
      let (ts, o3) ← readU64 data o2
      let (ep, o4) ← readU64 data o3
      let (cust, _) ← readPubkeyBytes data o4
      .ok (.initializeArgs staker withdrawer ts ep cust)
    | 1 => do
      let (pk, o1) ← readPubkeyBytes data off
      let (auth, _) ← readStakeAuth data o1
      .ok (.authorize pk auth)
    | 2 => .ok .delegateStake
    | 3 => do
      let (l, _) ← readU64 data off
      .ok (.split l)
    | 4 => do
      let (l, _) ← readU64 data off
      .ok (.withdraw l)
    | 5 => .ok .deactivate
    | 6 => do
      let (ts, o1) ← readOptU64 data off
      let (ep, o2) ← readOptU64 data o1
      let (cust, _) ← readOptPubkey data o2
      .ok (.setLockup ts ep cust)
    | 7 => .ok .merge
    | 8 => do
      let (pk, o1) ← readPubkeyBytes data off
      let (auth, o2) ← readStakeAuth data o1
      let (seed, o3) ← readStringBytes data o2
      let (owner, _) ← readPubkeyBytes data o3
      .ok (.authorizeWithSeed pk auth seed owner)
    | 9 => .ok .initializeChecked
    | 10 => do
      let (auth, _) ← readStakeAuth data off
      .ok (.authorizeChecked auth)
    | 11 => do
      let (auth, o1) ← readStakeAuth data off
      let (seed, o2) ← readStringBytes data o1
      let (owner, _) ← readPubkeyBytes data o2
      .ok (.authorizeCheckedWithSeed auth seed owner)
    | 12 => do
      let (ts, o1) ← readOptU64 data off
      let (ep, _) ← readOptU64 data o1
      .ok (.setLockupChecked ts ep)
    | 13 => .ok .getMinimumDelegation
    | 14 => .ok .deactivateDelinquent
    | 19 => .ok .deactivateDelinquent
    | 18 => .ok .deactivateDelinquent
    | 20 => .ok .deactivateDelinquent
    | 21 => .ok .deactivateDelinquent
    | 15 => .ok .redelegate
    | 16 => do
      let (l, _) ← readU64 data off
      .ok (.moveStake l)
    | 17 => do
      let (l, _) ← readU64 data off
      .ok (.moveLamports l)
    | _ => do
      let (ts, o1) ← readOptU64 data off
      let (ep, _) ← readOptU64 data o1
      .ok (.setLockupChecked ts ep)

/-- The unknown-variant fallback parse of `wire_sbf::deserialize`
(`entrypoint.rs` lines 663-668): read the two optional `SetLockupChecked`
fields starting right after the 4-byte discriminant. -/
def slcFallbackParse (data : List Nat) : Except ProgramError WireInstruction := do
  let (ts, o1) ← readOptU64 data 4
  let (ep, _) ← readOptU64 data o1
  .ok (.setLockupChecked ts ep)

/-- A decoder result whose only possible error is `InvalidInstructionData`. -/
def OnlyIID {α : Type} (x : Except ProgramError α) : Prop :=
  ∀ e, x = .error e → e = ProgramError.invalidInstructionData

/-- An account as the dispatcher sees it: its key and signer bit. -/
structure AccountMeta where
  key : Pubkey
  isSigner : Bool
  deriving DecidableEq, Repr

/-- The outcome of the dispatcher `process_instruction`: an error returned
before any handler runs, a direct fast-path handler call, the inline
`GetMinimumDelegation` return, or a decoded instruction handed to
`wire_sbf::dispatch`. -/
inductive Route where
  | failed (e : ProgramError)
  | deactivateDelinquentCall
  | delegateCall
  | deactivateCall
  | initializeCheckedCall
  | authorizeCheckedStakerCall
  | authorizeCheckedWithSeedCall (newAuthorized : Pubkey)
  | setLockupCheckedShortCall (rest : List Nat)
  | minimumDelegationReturn
  | dispatched (ix : WireInstruction)
  deriving DecidableEq, Repr

/-- The dispatcher's runtime inputs: the program-id check outcome, the
instruction payload, the account metas, the epoch-rewards sysvar flag read
(`epoch_rewards_active()`: the byte at offset 80, non-zero meaning active,
false when unreadable), and the results of `get_stake_state(accounts[0])` and
`Clock::get()` used by the first-byte-12 path. -/
structure DispatchEnv where
  programIdOk : Bool
  data : List Nat
  accounts : List AccountMeta
  rewardsActive : Bool
  stakeState0 : Except ProgramError StakeStateV2
  clockResult : Except ProgramError Clock
  deriving Repr

/-- The epoch-rewards gate applied on the canonical decode paths
(`entrypoint.rs` lines 248-252 and 260-264): every decoded instruction other
than `GetMinimumDelegation` fails with `EpochRewardsActive` when the flag is
set, before `wire_sbf::dispatch` runs. -/
def gateDispatch (env : DispatchEnv) (ix : WireInstruction) : Route :=
  if env.rewardsActive ∧ ix ≠ .getMinimumDelegation then
    .failed (toProgramError .epochRewardsActive)
  else
    .dispatched ix

/-- The gate-then-handler tail of the first-byte-12 path (`entrypoint.rs`
lines 139-143). -/
def slcLongTail (env : DispatchEnv) : Route :=
  if env.rewardsActive then .failed (toProgramError .epochRewardsActive)
  else .setLockupCheckedShortCall env.data.tail

/-- The first-byte-12 short-form `SetLockupChecked` path (`entrypoint.rs`
lines 114-144): load the stake state, require the role signer (custodian when
the lockup is in force, withdrawer otherwise; any signer when the state has
no meta), apply the epoch-rewards gate, then call the handler on the
remaining bytes. -/
def slcLongPath (env : DispatchEnv) : Route :=
  match env.accounts.head? with
  | none => .failed .notEnoughAccountKeys
  | some _ =>
    match env.stakeState0 with
    | .error e => .failed e
    | .ok st =>
      match (match st with
             | .initialized m => some m
             | .stake m _ _ => some m
             | _ => none) with
      | some meta =>
        match env.clockResult with
        | .error e => .failed e
        | .ok clk =>
          let inForce := meta.lockup.isInForce clk none
          let want := if inForce then meta.lockup.custodian else meta.authorized.withdrawer
          if !(env.accounts.any fun ai => ai.key = want && ai.isSigner) then
            .failed .missingRequiredSignature
          else slcLongTail env
      | none =>
        if !(env.accounts.any (·.isSigner)) then .failed .missingRequiredSignature
        else slcLongTail env

/-- The SBF short-tag decode of `entrypoint.rs` lines 230-253 (reached only
for short payloads the universal fast path did not consume): build the wire
instruction, apply the epoch-rewards gate, dispatch; unknown tags are
`InvalidInstructionData`. -/
def sbfShortMatch (env : DispatchEnv) : Route :=
  match env.data.headD 0 with
  | 2 => gateDispatch env .delegateStake
  | 9 => gateDispatch env .initializeChecked
  | 10 => gateDispatch env (.authorizeChecked .staker)
  | 11 => gateDispatch env (.authorizeCheckedWithSeed .staker [] (List.replicate 32 0))
  | 12 => gateDispatch env (.setLockupChecked none none)
  | 13 => gateDispatch env .getMinimumDelegation
  | 5 => gateDispatch env .deactivate
  | _ => .failed .invalidInstructionData

/-- The dispatcher tail after the universal fast path (`entrypoint.rs` lines
112-283, SBF build, `compat_loose_decode` off): the first-byte-12 path, the
SBF short-tag re-match, or the canonical `wire_sbf::deserialize` followed by
the epoch-rewards gate and dispatch. -/
def afterShort (env : DispatchEnv) : Route :=
  if env.data.headD 0 = 12 then slcLongPath env
  else if env.data.length < 4 then sbfShortMatch env
  else
    match wireSbfDeserialize env.data with
    | .ok ix => gateDispatch env ix
    | .error _ => .failed .invalidInstructionData

/-- `process_instruction` from `entrypoint.rs` (lines 24-303, SBF build,
`compat_loose_decode` off) as a routing function: the program-id check, the
empty-payload path, the universal short-tag fast path (lines 57-111), then
`afterShort`. -/
def processRoute (env : DispatchEnv) : Route :=
  if !env.programIdOk then .failed .incorrectProgramId
  else
    match env.data with
    | [] =>
      if env.rewardsActive then .failed (toProgramError .epochRewardsActive)
      else .deactivateDelinquentCall
    | b0 :: rest =>
      if (b0 :: rest).length < 4 then
        match b0 with
        | 2 => .delegateCall
        | 5 => .deactivateCall
        | 9 => .initializeCheckedCall
        | 10 => .authorizeCheckedStakerCall
        | 11 =>
          match env.accounts[3]? with
          | some ai => .authorizeCheckedWithSeedCall ai.key
          | none => .failed .notEnoughAccountKeys
        | 12 =>
          if !(env.accounts.any (·.isSigner)) then .failed .missingRequiredSignature
          else if env.rewardsActive then .failed (toProgramError .epochRewardsActive)
          else .setLockupCheckedShortCall rest
        | 13 => .minimumDelegationReturn
        | _ => afterShort env
      else afterShort env

/-- A dispatch environment with the epoch-rewards flag set, four non-signer
accounts, and the given payload. -/
def rewardsOnEnv (data : List Nat) : DispatchEnv :=
  { programIdOk := true
    data := data
    accounts := [⟨31, false⟩, ⟨32, false⟩, ⟨33, false⟩, ⟨34, false⟩]
    rewardsActive := true
    stakeState0 := .error .invalidAccountData
    clockResult := .ok ⟨0, 0⟩ }

/-- Wrapping 32-bit addition (`u32::wrapping_add`). -/
def wadd (a b : Nat) : Nat := (a + b) % 2 ^ 32

/-- `rotr` from `crypto/sha256.rs`: `(x >> n) | (x << (32 - n))` on `u32`
(the left shift discards bits past 32). -/
def rotr (x n : Nat) : Nat := (x >>> n) ||| ((x <<< (32 - n)) % 2 ^ 32)

/-- `ch` from `crypto/sha256.rs`: `(x & y) ^ (!x & z)`; on `u32`, `!x` is
xor with the all-ones mask. -/
def ch (x y z : Nat) : Nat := (x &&& y) ^^^ ((x ^^^ 0xFFFFFFFF) &&& z)

/-- `maj` from `crypto/sha256.rs`. -/
def maj (x y z : Nat) : Nat := (x &&& y) ^^^ (x &&& z) ^^^ (y &&& z)

/-- `big_sigma0` from `crypto/sha256.rs`. -/
def bigSigma0 (x : Nat) : Nat := rotr x 2 ^^^ rotr x 13 ^^^ rotr x 22

/-- `big_sigma1` from `crypto/sha256.rs`. -/
def bigSigma1 (x : Nat) : Nat := rotr x 6 ^^^ rotr x 11 ^^^ rotr x 25

/-- `small_sigma0` from `crypto/sha256.rs`. -/
def smallSigma0 (x : Nat) : Nat := rotr x 7 ^^^ rotr x 18 ^^^ (x >>> 3)

/-- `small_sigma1` from `crypto/sha256.rs`. -/
def smallSigma1 (x : Nat) : Nat := rotr x 17 ^^^ rotr x 19 ^^^ (x >>> 10)

/-- The SHA-256 round constants `K` (identical in `crypto/sha256.rs` and in
the FIPS 180-4 standard). -/
def K256 : List Nat :=
  [0x428A2F98, 0x71374491, 0xB5C0FBCF, 0xE9B5DBA5,
   0x3956C25B, 0x59F111F1, 0x923F82A4, 0xAB1C5ED5,
   0xD807AA98, 0x12835B01, 0x243185BE, 0x550C7DC3,
   0x72BE5D74, 0x80DEB1FE, 0x9BDC06A7, 0xC19BF174,
   0xE49B69C1, 0xEFBE4786, 0x0FC19DC6, 0x240CA1CC,
   0x2DE92C6F, 0x4A7484AA, 0x5CB0A9DC, 0x76F988DA,
   0x983E5152, 0xA831C66D, 0xB00327C8, 0xBF597FC7,
   0xC6E00BF3, 0xD5A79147, 0x06CA6351, 0x14292967,
   0x27B70A85, 0x2E1B2138, 0x4D2C6DFC, 0x53380D13,
   0x650A7354, 0x766A0ABB, 0x81C2C92E, 0x92722C85,
   0xA2BFE8A1, 0xA81A664B, 0xC24B8B70, 0xC76C51A3,
   0xD192E819, 0xD6990624, 0xF40E3585, 0x106AA070,
   0x19A4C116, 0x1E376C08, 0x2748774C, 0x34B0BCB5,
   0x391C0CB3, 0x4ED8AA4A, 0x5B9CCA4F, 0x682E6FF3,
   0x748F82EE, 0x78A5636F, 0x84C87814, 0x8CC70208,
   0x90BEFFFA, 0xA4506CEB, 0xBEF9A3F7, 0xC67178F2]

/-- The SHA-256 initial hash state `H0` (identical in `crypto/sha256.rs` and
in the standard). -/
def H256 : List Nat :=
  [0x6A09E667, 0xBB67AE85, 0x3C6EF372, 0xA54FF53A,
   0x510E527F, 0x9B05688C, 0x1F83D9AB, 0x5BE0CD19]

/-- Big-endian value of a byte list (`u32::from_be_bytes`). -/
def beVal (bytes : List Nat) : Nat :=
  bytes.foldl (fun acc b => acc * 256 + b) 0

/-- The `k` big-endian bytes of a value (`to_be_bytes`). -/
def beBytes (k v : Nat) : List Nat :=
  (List.range k).map fun i => v / 2 ^ (8 * (k - 1 - i)) % 256

/-- The SHA-256 message schedule: the 16 big-endian words of the block,
extended to 64 words by `w[t] = σ1(w[t-2]) + w[t-7] + σ0(w[t-15]) + w[t-16]`
with wrapping additions (`crypto/sha256.rs` lines 72-82; word 16 of FIPS
180-4 section 6.2.2). -/
def msgSchedule (block : List Nat) : List Nat :=
  let w16 := (List.range 16).map fun t => beVal ((block.drop (4 * t)).take 4)
  (List.range 48).foldl
    (fun w _ =>
      let t := w.length
      w ++ [wadd (wadd (smallSigma1 (w.getD (t - 2) 0)) (w.getD (t - 7) 0))
              (wadd (smallSigma0 (w.getD (t - 15) 0)) (w.getD (t - 16) 0))])
    w16

/-- One SHA-256 round on the working variables `[a,b,c,d,e,f,g,h]`
(`crypto/sha256.rs` lines 89-104). -/
def roundStep (st : List Nat) (kw : Nat × Nat) : List Nat :=
  match st with
  | [a, b, c, d, e, f, g, hh] =>
    let t1 := wadd (wadd (wadd (wadd hh (bigSigma1 e)) (ch e f g)) kw.1) kw.2
    let t2 := wadd (bigSigma0 a) (maj a b c)
    [wadd t1 t2, a, b, c, wadd d t1, e, f, g]
  | _ => st

/-- The SHA-256 compression of one 64-byte block into the hash state
(`crypto/sha256.rs` lines 71-115; FIPS 180-4 section 6.2.2). -/
def sha256Compress (h : List Nat) (block : List Nat) : List Nat :=
  let st := (K256.zip (msgSchedule block)).foldl roundStep h
  match h, st with
  | [h0, h1, h2, h3, h4, h5, h6, h7], [a, b, c, d, e, f, g, hh] =>
    [wadd h0 a, wadd h1 b, wadd h2 c, wadd h3 d,
     wadd h4 e, wadd h5 f, wadd h6 g, wadd h7 hh]
  | _, _ => h

/-- Exact 64-byte chunking (`chunks_exact(64)`): fuel-driven so that it
computes by structural recursion; the fuel is the list length. -/
def chunks64 : Nat → List Nat → List (List Nat)
  | 0, _ => []
  | fuel + 1, l => if 64 ≤ l.length then l.take 64 :: chunks64 fuel (l.drop 64) else []

/-- `chunks_exact(64)` over a byte list (any remainder shorter than 64 bytes
is dropped, as in Rust). -/
def chunksExact64 (l : List Nat) : List (List Nat) := chunks64 l.length l

/-- The padded message prefix both the implementation and the standard build:
the data, the `0x80` marker, `p` zero bytes, and the 64-bit big-endian bit
length. -/
def paddedPrefix (data : List Nat) (p : Nat) : List Nat :=
  data ++ [0x80] ++ List.replicate p 0 ++ beBytes 8 (data.length * 8)

/-- `hash` from `crypto/sha256.rs` (lines 45-123): the fixed 192-byte padding
buffer is modelled as the padded prefix followed by the untouched zero tail,
and every buffer write carries its bounds check — an out-of-bounds index (a
Rust panic) yields `none`. `pad_zeros` is computed exactly as in the source
(`rem = (len+1) % 64; if rem ≤ 56 then 56 - rem else 64 + 56 - rem`), and the
first `plen` bytes are processed in 64-byte blocks. -/
def sha256HashCode (data : List Nat) : Option (List Nat) :=
  if 192 < data.length then none
  else if 192 ≤ data.length then none
  else
    let plen1 := data.length + 1
    let rem := plen1 % 64
    let padZeros := if rem ≤ 56 then 56 - rem else 64 + 56 - rem
    if 192 < plen1 + padZeros then none
    else if 192 < plen1 + padZeros + 8 then none
    else
      let plen := plen1 + padZeros + 8
      let padded := paddedPrefix data padZeros ++ List.replicate (192 - plen) 0
      let blocks := chunksExact64 (padded.take plen)
      some (((blocks.foldl sha256Compress H256).map (beBytes 4)).flatten)

/-- The FIPS 180-4 SHA-256 digest: append the `0x80` marker, then the least
number of zero bytes making the length 56 mod 64, then the 64-bit big-endian
message bit length; compress each 64-byte block in order and output the final
state big-endian. -/
def sha256Fips (data : List Nat) : List Nat :=
  let k := (120 - (data.length + 1) % 64) % 64
  ((chunksExact64 (paddedPrefix data k)).foldl sha256Compress H256).map (beBytes 4) |>.flatten

/-- Binding a success in the `Except` monad applies the continuation. -/
@[simp] theorem ebind_ok {ε α β : Type} (a : α) (f : α → Except ε β) :
    (Except.ok a >>= f) = f a := rfl

/-- Binding a failure in the `Except` monad propagates the error. -/
@[simp] theorem ebind_err {ε α β : Type} (e : ε) (f : α → Except ε β) :
    ((Except.error e : Except ε α) >>= f) = Except.error e := rfl

/-- Every successful run of the merge branch tail conserves lamports: the
destination ends with both balances, the source ends drained and
`Uninitialized`. -/
theorem mergeBranchesAccounts_ok (dstKind srcKind : MergeKind) (dst src dst' src' : Account)
    (h : mergeBranchesAccounts dstKind srcKind dst src = .ok (dst', src')) :
    dst'.lamports = dst.lamports + src.lamports ∧ src'.lamports = 0 ∧
    src'.state = .uninitialized := by
  unfold mergeBranchesAccounts relocateLamports checkedSub checkedAdd at h
  cases hi : inlineDstState dstKind srcKind dst.lamports src.lamports with
  | error e => rw [hi] at h; simp at h
  | ok stOpt =>
    rw [hi] at h
    simp only [ebind_ok, Nat.le_refl, if_true, Nat.sub_self] at h
    split at h
    · cases stOpt <;>
      · simp only [ebind_ok, Except.ok.injEq, Prod.mk.injEq] at h
        obtain ⟨h1, h2⟩ := h
        subst h1; subst h2
        simp
    · simp at h

/-- CLAIM C5 scratch check on concrete inputs. -/
example :
    MergeKind.getIfMergeable (fun _ _ => ⟨0, 0, 0⟩)
      (.stake { rentExemptReserve := 1, authorized := ⟨2, 3⟩, lockup := Lockup.default }
        { delegation := { voterPubkey := 9, stake := 5, activationEpoch := 0, deactivationEpoch := 7 },
          creditsObserved := 0 } 0)
      10 { epoch := 8, unixTimestamp := 0 } =
    .ok (.inactive { rentExemptReserve := 1, authorized := ⟨2, 3⟩, lockup := Lockup.default } 10 0) := by
  rfl

/-- The in-repo SHA-256 agrees with the FIPS digest on the "abc" test vector
of FIPS 180-4 (`ba7816bf…15ad`). -/
example :
    sha256HashCode [0x61, 0x62, 0x63] =
      some [0xba, 0x78, 0x16, 0xbf, 0x8f, 0x01, 0xcf, 0xea,
            0x41, 0x41, 0x40, 0xde, 0x5d, 0xae, 0x22, 0x23,
            0xb0, 0x03, 0x61, 0xa3, 0x96, 0x17, 0x7a, 0x9c,
            0xb4, 0x10, 0xff, 0x61, 0xf2, 0x00, 0x15, 0xad] := by
  decide

/-- CLAIM C5: for every `Stake`-variant state whose `deactivation_epoch` is not
`u64::MAX`, `MergeKind::get_if_mergeable` returns the `MergeMismatch` error
when `clock.epoch ≤ deactivation_epoch`, and classifies the account as
`Inactive` with its meta, lamports and flags when
`clock.epoch > deactivation_epoch` — for every stake-history behaviour
(`statusFn` is universally quantified). -/
theorem getIfMergeable_deactivation_scheduled (statusFn : StatusFn)
    (meta : Meta) (stake : Stake) (flags : StakeFlags) (lamports : Nat)
    (clock : Clock) (h : stake.delegation.deactivationEpoch ≠ U64MAX) :
    (clock.epoch ≤ stake.delegation.deactivationEpoch →
      MergeKind.getIfMergeable statusFn (.stake meta stake flags) lamports clock =
        .error (toProgramError .mergeMismatch)) ∧
    (stake.delegation.deactivationEpoch < clock.epoch →
      MergeKind.getIfMergeable statusFn (.stake meta stake flags) lamports clock =
        .ok (.inactive meta lamports flags)) := by
  constructor
  · intro hle
    simp only [MergeKind.getIfMergeable, if_pos h, if_pos hle]
  · intro hlt
    simp only [MergeKind.getIfMergeable, if_pos h, if_neg (by omega : ¬ clock.epoch ≤ stake.delegation.deactivationEpoch)]

/-- CLAIM C3: every successful Merge conserves the lamport sum over the two
participating accounts, sets the source to `Uninitialized`, and moves all of
the source's lamports to the destination. The statement quantifies over every
environment and every behaviour of the missing stake-history engine, so it
covers all allowed classification pairs (Inactive+Inactive,
Inactive+ActivationEpoch, ActivationEpoch+Inactive,
ActivationEpoch+ActivationEpoch, FullyActive+FullyActive). -/
theorem processMerge_conserves (statusFn : StatusFn) (env : MergeEnv)
    (dst' src' : Account) (h : processMerge statusFn env = .ok (dst', src')) :
    dst'.lamports + src'.lamports = env.dst.lamports + env.src.lamports ∧
    src'.state = .uninitialized ∧ src'.lamports = 0 ∧
    dst'.lamports = env.dst.lamports + env.src.lamports := by
  rw [processMerge] at h
  split at h
  · exact absurd h (by simp)
  split at h
  · exact absurd h (by simp)
  split at h
  · exact absurd h (by simp)
  split at h
  · exact absurd h (by simp)
  split at h
  · exact absurd h (by simp)
  split at h
  · exact absurd h (by simp)
  cases hd : classifyWithFallback statusFn env.dst.state env.dst.lamports env.clock with
  | error e => rw [hd] at h; simp at h
  | ok dstKind =>
    rw [hd] at h
    simp only [ebind_ok] at h
    split at h
    · exact absurd h (by simp)
    cases hs : classifyWithFallback statusFn env.src.state env.src.lamports env.clock with
    | error e => rw [hs] at h; simp at h
    | ok srcKind =>
      rw [hs] at h
      simp only [ebind_ok] at h
      cases hm : MergeKind.metasCanMerge dstKind.meta srcKind.meta env.clock with
      | error e => rw [hm] at h; simp at h
      | ok u =>
        rw [hm] at h
        simp only [ebind_ok] at h
        have hb := mergeBranchesAccounts_ok dstKind srcKind env.dst env.src dst' src' h
        exact ⟨by omega, hb.2.2, hb.2.1, hb.1⟩

/-- Witness for `processMerge_conserves` at a concrete successful merge. -/
theorem processMerge_conserves_witness :
    processMerge statusZeroW mergeEnvW =
      .ok ({ state := .initialized mergeMetaW, lamports := 15 }, { state := .uninitialized, lamports := 0 }) ∧
    ((15 : Nat) + 0 = mergeEnvW.dst.lamports + mergeEnvW.src.lamports ∧
     (StakeStateV2.uninitialized : StakeStateV2) = .uninitialized ∧ (0 : Nat) = 0 ∧
     (15 : Nat) = mergeEnvW.dst.lamports + mergeEnvW.src.lamports) :=
  ⟨rfl, processMerge_conserves statusZeroW mergeEnvW
    { state := .initialized mergeMetaW, lamports := 15 }
    { state := .uninitialized, lamports := 0 } rfl⟩

/-- CLAIM C6: in both stake-bearing merges — ActivationEpoch+ActivationEpoch,
where the absorbed amount is the source's rent-exempt reserve plus its
delegated stake, and FullyActive+FullyActive, where it is the source's
delegated stake only — the destination's `credits_observed` becomes the
ceiling of `(dst_stake·dst_credits + absorbed·src_credits) / (dst_stake +
absorbed)` (computed as a floor division with a `(total − 1)` bias), and the
destination's delegated stake is incremented by the absorbed amount. -/
theorem mergeCreditsObserved_weighted (dstMeta srcMeta : Meta)
    (dstStake srcStake : Stake) (dstFlags srcFlags : StakeFlags) (dstL srcL : Nat) :
    (∀ m s f, inlineDstState (.activationEpoch dstMeta dstStake dstFlags)
        (.activationEpoch srcMeta srcStake srcFlags) dstL srcL =
          .ok (some (.stake m s f)) →
      s.creditsObserved =
        (dstStake.delegation.stake * dstStake.creditsObserved +
          (srcMeta.rentExemptReserve + srcStake.delegation.stake) * srcStake.creditsObserved)
        ⌈/⌉ (dstStake.delegation.stake + (srcMeta.rentExemptReserve + srcStake.delegation.stake)) ∧
      s.delegation.stake =
        dstStake.delegation.stake + (srcMeta.rentExemptReserve + srcStake.delegation.stake)) ∧
    (∀ m s f, inlineDstState (.fullyActive dstMeta dstStake)
        (.fullyActive srcMeta srcStake) dstL srcL = .ok (some (.stake m s f)) →
      s.creditsObserved =
        (dstStake.delegation.stake * dstStake.creditsObserved +
          srcStake.delegation.stake * srcStake.creditsObserved)
        ⌈/⌉ (dstStake.delegation.stake + srcStake.delegation.stake) ∧
      s.delegation.stake = dstStake.delegation.stake + srcStake.delegation.stake) := by
  constructor
  · intro m s f h
    simp only [inlineDstState] at h
    unfold mergeDelegationStakeAndCreditsObserved checkedAdd at h
    split at h
    · simp only [ebind_ok] at h
      split at h
      · simp only [ebind_ok] at h
        split at h
        · exact absurd h (by simp)
        · simp only [ebind_ok, Except.ok.injEq, Option.some.injEq,
            StakeStateV2.stake.injEq] at h
          obtain ⟨-, hs, -⟩ := h
          subst hs
          refine ⟨?_, rfl⟩
          dsimp only
          rw [Nat.ceilDiv_eq_add_pred_div]
          congr 1
          omega
      · exact absurd h (by simp)
    · exact absurd h (by simp)
  · intro m s f h
    simp only [inlineDstState] at h
    unfold mergeDelegationStakeAndCreditsObserved checkedAdd at h
    split at h
    · simp only [ebind_ok] at h
      split at h
      · exact absurd h (by simp)
      · simp only [ebind_ok, Except.ok.injEq, Option.some.injEq,
          StakeStateV2.stake.injEq] at h
        obtain ⟨-, hs, -⟩ := h
        subst hs
        refine ⟨?_, rfl⟩
        dsimp only
        rw [Nat.ceilDiv_eq_add_pred_div]
        congr 1
        omega
    · exact absurd h (by simp)

/-- Witness for `mergeCreditsObserved_weighted`: a concrete AE+AE merge of
delegations 40 (credits 10) and 60 (credits 20, reserve 0) yielding stake 100
and credits 16, and a concrete FA+FA merge of 30 (credits 4) and 10
(credits 8) yielding stake 40 and credits 5. -/
theorem mergeCreditsObserved_weighted_witness :
    inlineDstState
        (.activationEpoch mergeMetaW ⟨⟨7, 40, 0, U64MAX⟩, 10⟩ 0)
        (.activationEpoch { mergeMetaW with rentExemptReserve := 0 } ⟨⟨7, 60, 0, U64MAX⟩, 20⟩ 0) 41 60 =
      .ok (some (.stake mergeMetaW ⟨⟨7, 100, 0, U64MAX⟩, 16⟩ 0)) ∧
    ((16 : Nat) = (40 * 10 + (0 + 60) * 20) ⌈/⌉ (40 + (0 + 60)) ∧ (100 : Nat) = 40 + (0 + 60)) ∧
    ((5 : Nat) = (30 * 4 + 10 * 8) ⌈/⌉ (30 + 10) ∧ (40 : Nat) = 30 + 10) :=
  ⟨rfl,
   (mergeCreditsObserved_weighted mergeMetaW { mergeMetaW with rentExemptReserve := 0 }
      ⟨⟨7, 40, 0, U64MAX⟩, 10⟩ ⟨⟨7, 60, 0, U64MAX⟩, 20⟩ 0 0 41 60).1
      mergeMetaW ⟨⟨7, 100, 0, U64MAX⟩, 16⟩ 0 rfl,
   (mergeCreditsObserved_weighted mergeMetaW { mergeMetaW with rentExemptReserve := 0 }
      ⟨⟨7, 30, 0, U64MAX⟩, 4⟩ ⟨⟨7, 10, 0, U64MAX⟩, 8⟩ 0 0 41 60).2
      mergeMetaW ⟨⟨7, 40, 0, U64MAX⟩, 5⟩ StakeFlags.empty rfl⟩

/-- CLAIM C10 counterexample: an (Inactive destination, ActivationEpoch
source) pair that both code paths accept, on which the inline merge logic of
`process_merge` and `MergeKind::merge` compute different destination states:
with destination lamports 100, reserve 10, source lamports 50 and source
delegated stake 30, the inline path sets the merged stake to
100 + 50 − 10 = 140 while `MergeKind::merge` sets it to 30 + 100 = 130. -/
theorem inlineMerge_vs_mergeKind_counterexample :
    inlineDstState (.inactive mergeMetaW10 100 0)
        (.activationEpoch mergeMetaW10 ⟨⟨7, 30, 0, U64MAX⟩, 5⟩ 0) 100 50 =
      .ok (some (.stake mergeMetaW10 ⟨⟨7, 140, 0, U64MAX⟩, 5⟩ 0)) ∧
    MergeKind.merge (.inactive mergeMetaW10 100 0)
        (.activationEpoch mergeMetaW10 ⟨⟨7, 30, 0, U64MAX⟩, 5⟩ 0) ⟨4, 100⟩ =
      .ok (some (.stake mergeMetaW10 ⟨⟨7, 130, 0, U64MAX⟩, 5⟩ 0)) ∧
    (some (StakeStateV2.stake mergeMetaW10 ⟨⟨7, 140, 0, U64MAX⟩, 5⟩ 0) ≠
      some (StakeStateV2.stake mergeMetaW10 ⟨⟨7, 130, 0, U64MAX⟩, 5⟩ 0)) :=
  ⟨rfl, rfl, by decide⟩

/-- CLAIM C10 amended: whenever both the inline merge logic of `process_merge`
and `MergeKind::merge` accept the same classification pair, the computed
destination states agree for the pairs Inactive+Inactive,
ActivationEpoch+Inactive, ActivationEpoch+ActivationEpoch and
FullyActive+FullyActive; for (Inactive destination, ActivationEpoch source)
they agree exactly when the source account's lamports equal its delegated
stake plus the destination's rent-exempt reserve (hypothesis `hae`), the
inline path computing `dst_lamports + src_lamports − dst_reserve` where
`MergeKind::merge` computes `src_stake + dst_lamports`. The hypothesis `hC`
records that an `Inactive` classification carries the destination account's
lamports, as `process_merge` constructs it. -/
theorem inlineMerge_refines_mergeKind (k1 k2 : MergeKind) (dstL srcL : Nat)
    (clock : Clock) (r r' : Option StakeStateV2)
    (hC : ∀ m l f, k1 = .inactive m l f → l = dstL)
    (hae : ∀ mD lD fD mS sS fS, k1 = .inactive mD lD fD → k2 = .activationEpoch mS sS fS →
      srcL = sS.delegation.stake + mD.rentExemptReserve)
    (hmk : MergeKind.merge k1 k2 clock = .ok r)
    (hin : inlineDstState k1 k2 dstL srcL = .ok r') :
    r = r' := by
  cases k1 with
  | inactive mD lD fD =>
    cases k2 with
    | inactive mS lS fS =>
      simp only [MergeKind.merge, MergeKind.activeStake, inlineDstState, ebind_ok,
        Except.ok.injEq] at hmk hin
      exact hmk ▸ hin ▸ rfl
    | activationEpoch mS sS fS =>
      have hl : lD = dstL := hC _ _ _ rfl
      have hs : srcL = sS.delegation.stake + mD.rentExemptReserve := hae _ _ _ _ _ _ rfl rfl
      subst hl
      simp only [MergeKind.merge, MergeKind.activeStake, inlineDstState, ebind_ok] at hmk hin
      unfold checkedAdd at hmk hin
      unfold checkedSub at hin
      split at hmk
      · simp only [ebind_ok, Except.ok.injEq] at hmk
        split at hin
        · simp only [ebind_ok] at hin
          split at hin
          · simp only [ebind_ok, Except.ok.injEq] at hin
            subst hmk; subst hin
            have hv : sS.delegation.stake + lD = lD + srcL - mD.rentExemptReserve := by
              omega
            rw [hv]
          · exact absurd hin (by simp)
        · exact absurd hin (by simp)
      · exact absurd hmk (by simp)
    | fullyActive mS sS =>
      simp only [MergeKind.merge, MergeKind.activeStake, inlineDstState, ebind_ok] at hmk
      exact absurd hmk (by simp)
  | activationEpoch mD sD fD =>
    cases k2 with
    | inactive mS lS fS =>
      simp only [MergeKind.merge, MergeKind.activeStake, inlineDstState, ebind_ok] at hmk hin
      have := hmk.symm.trans hin
      simpa using this
    | activationEpoch mS sS fS =>
      simp only [MergeKind.merge, MergeKind.activeStake, inlineDstState, ebind_ok] at hmk hin
      cases hd : MergeKind.activeDelegationsCanMerge sD.delegation sS.delegation with
      | error e => rw [hd] at hmk; simp at hmk
      | ok u =>
        rw [hd] at hmk
        simp only [ebind_ok] at hmk
        have := hmk.symm.trans hin
        simpa using this
    | fullyActive mS sS =>
      simp only [MergeKind.merge, MergeKind.activeStake, inlineDstState, ebind_ok] at hmk
      cases hd : MergeKind.activeDelegationsCanMerge sD.delegation sS.delegation with
      | error e => rw [hd] at hmk; simp at hmk
      | ok u => rw [hd] at hmk; simp at hmk
  | fullyActive mD sD =>
    cases k2 with
    | inactive mS lS fS =>
      simp only [MergeKind.merge, MergeKind.activeStake, inlineDstState, ebind_ok] at hmk
      exact absurd hmk (by simp)
    | activationEpoch mS sS fS =>
      simp only [MergeKind.merge, MergeKind.activeStake, inlineDstState, ebind_ok] at hmk
      cases hd : MergeKind.activeDelegationsCanMerge sD.delegation sS.delegation with
      | error e => rw [hd] at hmk; simp at hmk
      | ok u => rw [hd] at hmk; simp at hmk
    | fullyActive mS sS =>
      simp only [MergeKind.merge, MergeKind.activeStake, inlineDstState, ebind_ok] at hmk hin
      cases hd : MergeKind.activeDelegationsCanMerge sD.delegation sS.delegation with
      | error e => rw [hd] at hmk; simp at hmk
      | ok u =>
        rw [hd] at hmk
        simp only [ebind_ok] at hmk
        have := hmk.symm.trans hin
        simpa using this

/-- Witness for `inlineMerge_refines_mergeKind`: a concrete IN+AE pair whose
source lamports equal its stake plus the destination reserve (40 = 30 + 10),
on which both paths compute the merged stake 130. -/
theorem inlineMerge_refines_mergeKind_witness :
    MergeKind.merge (.inactive mergeMetaW10 100 0)
        (.activationEpoch mergeMetaW10 ⟨⟨7, 30, 0, U64MAX⟩, 5⟩ 0) ⟨4, 100⟩ =
      .ok (some (.stake mergeMetaW10 ⟨⟨7, 130, 0, U64MAX⟩, 5⟩ 0)) ∧
    inlineDstState (.inactive mergeMetaW10 100 0)
        (.activationEpoch mergeMetaW10 ⟨⟨7, 30, 0, U64MAX⟩, 5⟩ 0) 100 40 =
      .ok (some (.stake mergeMetaW10 ⟨⟨7, 130, 0, U64MAX⟩, 5⟩ 0)) ∧
    some (StakeStateV2.stake mergeMetaW10 ⟨⟨7, 130, 0, U64MAX⟩, 5⟩ 0) =
      some (StakeStateV2.stake mergeMetaW10 ⟨⟨7, 130, 0, U64MAX⟩, 5⟩ 0) :=
  ⟨rfl, rfl,
   inlineMerge_refines_mergeKind (.inactive mergeMetaW10 100 0)
     (.activationEpoch mergeMetaW10 ⟨⟨7, 30, 0, U64MAX⟩, 5⟩ 0) 100 40 ⟨4, 100⟩
     (some (.stake mergeMetaW10 ⟨⟨7, 130, 0, U64MAX⟩, 5⟩ 0))
     (some (.stake mergeMetaW10 ⟨⟨7, 130, 0, U64MAX⟩, 5⟩ 0))
     (by intro m l f h; cases h; rfl)
     (by intro mD lD fD mS sS fS h1 h2; cases h1; cases h2; rfl)
     rfl rfl⟩

/-- CLAIM C7: for a Delegate on an account already in `Stake` state with a
scheduled deactivation (`deactivation_epoch ≠ u64::MAX`), once the staker has
signed and the delegated amount passes validation: a vote account different
from the current voter fails with `TooSoonToRedelegate`, and the current
voter rescinds the deactivation by resetting `deactivation_epoch` to
`u64::MAX` (all other fields untouched). -/
theorem processDelegate_deactivating (minDelegation : Nat)
    (effStakeFn : Delegation → Nat → Nat) (env : DelegateEnv)
    (meta : Meta) (stake : Stake) (flags : StakeFlags)
    (hstate : env.stakeAccount.state = .stake meta stake flags)
    (hdeact : stake.delegation.deactivationEpoch ≠ U64MAX)
    (hsig : env.signers.contains meta.authorized.staker = true)
    (hamount : minDelegation ≤ env.stakeAccount.lamports - meta.rentExemptReserve) :
    (env.voteKey ≠ stake.delegation.voterPubkey →
      processDelegate minDelegation effStakeFn env =
        .error (toProgramError .tooSoonToRedelegate)) ∧
    (env.voteKey = stake.delegation.voterPubkey →
      processDelegate minDelegation effStakeFn env =
        .ok (.stake meta
          { stake with delegation := { stake.delegation with deactivationEpoch := U64MAX } }
          flags)) := by
  have hbase : processDelegate minDelegation effStakeFn env =
      (if stake.delegation.deactivationEpoch ≠ U64MAX ∧
          stake.delegation.voterPubkey ≠ env.voteKey then
        .error (toProgramError .tooSoonToRedelegate)
      else do
        let stake1 ← redelegateStakeWithCredits effStakeFn stake
          (env.stakeAccount.lamports - meta.rentExemptReserve)
          env.voteKey env.voteCredits env.clock.epoch
        .ok (.stake meta stake1 flags)) := by
    simp only [processDelegate, hstate]
    unfold authorizedCheckStaker validateDelegatedAmount
    rw [if_pos hsig]
    simp only [ebind_ok]
    rw [if_neg (by omega : ¬ env.stakeAccount.lamports - meta.rentExemptReserve < minDelegation)]
    simp only [ebind_ok]
  constructor
  · intro hne
    rw [hbase, if_pos ⟨hdeact, fun hc => hne hc.symm⟩]
  · intro heq
    rw [hbase, if_neg (by
      intro hc
      exact hc.2 (heq ▸ rfl))]
    unfold redelegateStakeWithCredits
    rw [if_pos ⟨hdeact, heq.symm⟩]
    simp only [ebind_ok]

/-- Witness for `processDelegate_deactivating`: a concrete deactivating stake
rescinds when re-delegated to its current voter. -/
theorem processDelegate_deactivating_witness :
    processDelegate 1 (fun _ _ => 0)
        { stakeAccount := { state := .stake mergeMetaW ⟨⟨7, 30, 0, 6⟩, 5⟩ 0, lamports := 100 },
          voteKey := 7, voteCredits := 9, clock := ⟨5, 0⟩, signers := [2] } =
      .ok (.stake mergeMetaW ⟨⟨7, 30, 0, U64MAX⟩, 5⟩ 0) :=
  (processDelegate_deactivating 1 (fun _ _ => 0)
    { stakeAccount := { state := .stake mergeMetaW ⟨⟨7, 30, 0, 6⟩, 5⟩ 0, lamports := 100 },
      voteKey := 7, voteCredits := 9, clock := ⟨5, 0⟩, signers := [2] }
    mergeMetaW ⟨⟨7, 30, 0, 6⟩, 5⟩ 0 rfl (by decide) (by decide) (by decide)).2 rfl

/-- CLAIM C4: for a Withdraw on a stake account in `Stake` state with the
withdrawer signed, the lockup not in force, and the full balance requested:
if the remaining effective stake (the `staked` figure the handler computes)
is non-zero the instruction fails with `InsufficientFunds`; if no effective
stake remains, the account state is set to `Uninitialized` and only then are
the lamports moved (the effect trace lists the state write before the move),
draining the account into the destination. -/
theorem processWithdraw_full (effStakeFn : Delegation → Nat → Nat)
    (env : WithdrawEnv) (wl : Nat) (meta : Meta) (stake : Stake) (flags : StakeFlags)
    (hstate : env.source.state = .stake meta stake flags)
    (hsig : env.signers.contains meta.authorized.withdrawer = true)
    (hadd : withdrawStaked effStakeFn stake env.clock + meta.rentExemptReserve ≤ U64MAX)
    (hlock : meta.lockup.isInForce env.clock (custodianOpt meta.lockup env.signers) = false)
    (hfull : wl = env.source.lamports) :
    (withdrawStaked effStakeFn stake env.clock ≠ 0 →
      processWithdraw effStakeFn env wl = .error .insufficientFunds) ∧
    (withdrawStaked effStakeFn stake env.clock = 0 →
      env.dest.lamports + wl ≤ U64MAX →
      processWithdraw effStakeFn env wl =
        .ok ({ state := .uninitialized, lamports := 0 },
          { env.dest with lamports := env.dest.lamports + wl },
          [.setState .uninitialized, .move wl])) := by
  subst hfull
  have hbase : processWithdraw effStakeFn env env.source.lamports =
      (if (withdrawStaked effStakeFn stake env.clock != 0) then
        .error .insufficientFunds
      else do
        let src1 := { env.source with state := StakeStateV2.uninitialized }
        let (src2, dst2) ← relocateLamports src1 env.dest env.source.lamports
        .ok (src2, dst2, [.setState .uninitialized, .move env.source.lamports])) := by
    simp only [processWithdraw, hstate]
    unfold authorizedCheckWithdrawer
    rw [if_pos hsig]
    simp only [ebind_ok]
    unfold checkedAdd
    rw [if_pos hadd]
    simp only [ebind_ok, hlock, Bool.false_eq_true, if_false, if_pos rfl]
    simp only [eq_self_iff_true, if_true]
  constructor
  · intro hne
    rw [hbase, if_pos (by simpa using hne)]
  · intro hzero hdest
    rw [hbase, if_neg (by simp [hzero])]
    unfold relocateLamports checkedSub checkedAdd
    simp only [Nat.le_refl, if_true, Nat.sub_self, ebind_ok, if_pos (by simpa using hdest)]

/-- Witness for `processWithdraw_full`: a fully deactivated stake account
(deactivation epoch 6, history reporting zero effective at epoch 9) is fully
withdrawn: the state write precedes the lamport move, and the destination
receives the whole balance. -/
theorem processWithdraw_full_witness :
    processWithdraw (fun _ _ => 0)
        { source := { state := .stake mergeMetaW ⟨⟨7, 30, 0, 6⟩, 5⟩ 0, lamports := 100 }
          sourceIsSigner := false
          dest := { state := .uninitialized, lamports := 11 }
          clock := ⟨9, 0⟩
          signers := [3] } 100 =
      .ok ({ state := .uninitialized, lamports := 0 },
        { state := .uninitialized, lamports := 111 },
        [.setState .uninitialized, .move 100]) :=
  (processWithdraw_full (fun _ _ => 0)
    { source := { state := .stake mergeMetaW ⟨⟨7, 30, 0, 6⟩, 5⟩ 0, lamports := 100 }
      sourceIsSigner := false
      dest := { state := .uninitialized, lamports := 11 }
      clock := ⟨9, 0⟩
      signers := [3] } 100 mergeMetaW ⟨⟨7, 30, 0, 6⟩, 5⟩ 0
    rfl (by decide) (by decide) (by decide) rfl).2 (by decide) (by decide)

/-- CLAIM C1 (failing evaluation): with the epoch-rewards active flag reading
non-zero, the 1-byte short-form encodings with tags 2, 5, 9, 10 and 11 are
routed straight to their handlers by the universal fast path
(`entrypoint.rs` lines 64-111), with no `EpochRewardsActive` rejection — the
gated duplicates of these tags further down (lines 230-253) are unreachable.
Only the canonical path, the empty payload, and tag 12 are gated. -/
theorem shortTags_bypass_epochRewardsGate :
    processRoute (rewardsOnEnv [2]) = .delegateCall ∧
    processRoute (rewardsOnEnv [5]) = .deactivateCall ∧
    processRoute (rewardsOnEnv [9]) = .initializeCheckedCall ∧
    processRoute (rewardsOnEnv [10]) = .authorizeCheckedStakerCall ∧
    processRoute (rewardsOnEnv [11]) = .authorizeCheckedWithSeedCall 34 ∧
    processRoute (rewardsOnEnv []) = .failed (toProgramError .epochRewardsActive) ∧
    Route.delegateCall ≠ .failed (toProgramError .epochRewardsActive) :=
  ⟨rfl, rfl, rfl, rfl, rfl, rfl, by decide⟩

/-- A success satisfies `OnlyIID` vacuously. -/
theorem onlyIID_ok {α : Type} (a : α) : OnlyIID (.ok a) := by
  intro e h
  cases h

/-- An `InvalidInstructionData` failure satisfies `OnlyIID`. -/
theorem onlyIID_iid {α : Type} :
    OnlyIID (α := α) (.error .invalidInstructionData) := by
  intro e h
  cases h
  rfl

/-- `OnlyIID` is preserved by monadic sequencing. -/
theorem onlyIID_bind {α β : Type} {x : Except ProgramError α}
    {f : α → Except ProgramError β} (hx : OnlyIID x) (hf : ∀ a, OnlyIID (f a)) :
    OnlyIID (x >>= f) := by
  intro e h
  cases x with
  | error e2 =>
    simp only [ebind_err] at h
    cases h
    exact hx _ rfl
  | ok a =>
    simp only [ebind_ok] at h
    exact hf a e h

/-- The byte reader fails only with `InvalidInstructionData`. -/
theorem onlyIID_rtake (b : List Nat) (off n : Nat) : OnlyIID (rtake b off n) := by
  unfold rtake
  split
  · exact onlyIID_iid
  · exact onlyIID_ok _

theorem onlyIID_readU8 (b : List Nat) (off : Nat) : OnlyIID (readU8 b off) := by
  unfold readU8
  refine onlyIID_bind (onlyIID_rtake _ _ _) ?_
  rintro ⟨bs, o⟩
  exact onlyIID_ok _

theorem onlyIID_readU32 (b : List Nat) (off : Nat) : OnlyIID (readU32 b off) := by
  unfold readU32
  refine onlyIID_bind (onlyIID_rtake _ _ _) ?_
  rintro ⟨bs, o⟩
  exact onlyIID_ok _

theorem onlyIID_readU64 (b : List Nat) (off : Nat) : OnlyIID (readU64 b off) := by
  unfold readU64
  refine onlyIID_bind (onlyIID_rtake _ _ _) ?_
  rintro ⟨bs, o⟩
  exact onlyIID_ok _

theorem onlyIID_readBool (b : List Nat) (off : Nat) : OnlyIID (readBool b off) := by
  unfold readBool
  refine onlyIID_bind (onlyIID_readU8 _ _) ?_
  rintro ⟨v, o⟩
  exact onlyIID_ok _

theorem onlyIID_readPubkeyBytes (b : List Nat) (off : Nat) :
    OnlyIID (readPubkeyBytes b off) :=
  onlyIID_rtake b off 32

theorem onlyIID_readOptU64 (b : List Nat) (off : Nat) : OnlyIID (readOptU64 b off) := by
  unfold readOptU64
  refine onlyIID_bind (onlyIID_readBool _ _) ?_
  rintro ⟨tag, o⟩
  dsimp only
  split
  · refine onlyIID_bind (onlyIID_readU64 _ _) ?_
    rintro ⟨v, o2⟩
    exact onlyIID_ok _
  · exact onlyIID_ok _

theorem onlyIID_readOptPubkey (b : List Nat) (off : Nat) :
    OnlyIID (readOptPubkey b off) := by
  unfold readOptPubkey
  refine onlyIID_bind (onlyIID_readBool _ _) ?_
  rintro ⟨tag, o⟩
  dsimp only
  split
  · refine onlyIID_bind (onlyIID_readPubkeyBytes _ _) ?_
    rintro ⟨v, o2⟩
    exact onlyIID_ok _
  · exact onlyIID_ok _

theorem onlyIID_readStringBytes (b : List Nat) (off : Nat) :
    OnlyIID (readStringBytes b off) := by
  unfold readStringBytes
  refine onlyIID_bind (onlyIID_readU64 _ _) ?_
  rintro ⟨len, o⟩
  exact onlyIID_rtake _ _ _

theorem onlyIID_readStakeAuth (b : List Nat) (off : Nat) :
    OnlyIID (readStakeAuth b off) := by
  unfold readStakeAuth
  refine onlyIID_bind (onlyIID_readU32 _ _) ?_
  rintro ⟨v, o⟩
  dsimp only
  split
  · exact onlyIID_ok _
  · exact onlyIID_ok _
  · exact onlyIID_iid

set_option maxHeartbeats 2000000 in
/-- Every failure of the canonical decoder is `InvalidInstructionData`:
`rtake` shortage and the `StakeAuthorize` tag check are its only error
sources, and both yield that error. -/
theorem wireSbfDeserialize_onlyIID (data : List Nat) :
    OnlyIID (wireSbfDeserialize data) := by
  unfold wireSbfDeserialize
  split
  · exact onlyIID_ok _
  · split
    · exact onlyIID_iid
    · refine onlyIID_bind (onlyIID_readU32 _ _) ?_
      rintro ⟨variant, off⟩
      rcases variant with _|_|_|_|_|_|_|_|_|_|_|_|_|_|_|_|_|_|_|_|_|_|variant <;>
        (try dsimp only) <;>
        repeat'
          first
            | exact onlyIID_ok _
            | exact onlyIID_iid
            | exact onlyIID_readPubkeyBytes _ _
            | exact onlyIID_readU64 _ _
            | exact onlyIID_readOptU64 _ _
            | exact onlyIID_readOptPubkey _ _
            | exact onlyIID_readStringBytes _ _
            | exact onlyIID_readStakeAuth _ _
            | refine onlyIID_bind ?_ ?_
            | rintro ⟨a, b⟩

/-- Reading the 4-byte discriminant of a payload with at least 4 bytes
succeeds and leaves the offset at 4. -/
theorem readU32_cons4 (b0 b1 b2 b3 : Nat) (rest : List Nat) :
    readU32 (b0 :: b1 :: b2 :: b3 :: rest) 0 = .ok (leVal [b0, b1, b2, b3], 4) := by
  unfold readU32 rtake
  rw [if_neg (by simp only [List.length_cons]; omega)]
  rfl

/-- CLAIM C2 counterexample: the canonical decoder accepts trailing bytes
(`[2,0,0,0,7]` leaves one byte after `DelegateStake`'s empty field list yet
decodes successfully), maps the undeclared discriminant 18 to
`DeactivateDelinquent`, and parses the undeclared discriminant 22 through the
tolerant `SetLockupChecked` fallback — all without any compat feature. -/
theorem wireSbfDeserialize_counterexample :
    wireSbfDeserialize [2, 0, 0, 0, 7] = .ok .delegateStake ∧
    wireSbfDeserialize [18, 0, 0, 0] = .ok .deactivateDelinquent ∧
    wireSbfDeserialize [22, 0, 0, 0, 0, 0] = .ok (.setLockupChecked none none) :=
  ⟨rfl, rfl, rfl⟩

/-- CLAIM C2 amended: for every byte sequence given to the canonical long-form
decoder, if the bytes run short of the selected variant's fields the decoder
returns `InvalidInstructionData` — proven as: a nonempty payload shorter than
the 4-byte discriminant is rejected; every error the decoder can return is
`InvalidInstructionData`; and for each fixed-field variant (Initialize 112,
Authorize 36, Split 8, Withdraw 8, AuthorizeChecked 4, MoveStake 8,
MoveLamports 8 field bytes) any payload with fewer field bytes is rejected.
But bytes remaining after the variant's fields are not rejected (there is no
trailing-byte check: every payload starting with the DelegateStake
discriminant decodes to `DelegateStake` whatever follows), and 4-byte
discriminants outside the 18 declared variants are not rejected even absent a
compat feature: 18, 19, 20 and 21 decode to `DeactivateDelinquent` and every
discriminant of at least 22 is parsed by the tolerant `SetLockupChecked`
fallback. -/
theorem wireSbfDeserialize_contract :
    (∀ data : List Nat, data ≠ [] → data.length < 4 →
      wireSbfDeserialize data = .error .invalidInstructionData) ∧
    (∀ (data : List Nat) (e : ProgramError), wireSbfDeserialize data = .error e →
      e = .invalidInstructionData) ∧
    (∀ rest : List Nat,
      (rest.length < 112 →
        wireSbfDeserialize (0 :: 0 :: 0 :: 0 :: rest) = .error .invalidInstructionData) ∧
      (rest.length < 36 →
        wireSbfDeserialize (1 :: 0 :: 0 :: 0 :: rest) = .error .invalidInstructionData) ∧
      (rest.length < 8 →
        wireSbfDeserialize (3 :: 0 :: 0 :: 0 :: rest) = .error .invalidInstructionData) ∧
      (rest.length < 8 →
        wireSbfDeserialize (4 :: 0 :: 0 :: 0 :: rest) = .error .invalidInstructionData) ∧
      (rest.length < 4 →
        wireSbfDeserialize (10 :: 0 :: 0 :: 0 :: rest) = .error .invalidInstructionData) ∧
      (rest.length < 8 →
        wireSbfDeserialize (16 :: 0 :: 0 :: 0 :: rest) = .error .invalidInstructionData) ∧
      (rest.length < 8 →
        wireSbfDeserialize (17 :: 0 :: 0 :: 0 :: rest) = .error .invalidInstructionData)) ∧
    (∀ extra : List Nat,
      wireSbfDeserialize (2 :: 0 :: 0 :: 0 :: extra) = .ok .delegateStake) ∧
    (∀ extra : List Nat,
      wireSbfDeserialize (18 :: 0 :: 0 :: 0 :: extra) = .ok .deactivateDelinquent ∧
      wireSbfDeserialize (19 :: 0 :: 0 :: 0 :: extra) = .ok .deactivateDelinquent ∧
      wireSbfDeserialize (20 :: 0 :: 0 :: 0 :: extra) = .ok .deactivateDelinquent ∧
      wireSbfDeserialize (21 :: 0 :: 0 :: 0 :: extra) = .ok .deactivateDelinquent) ∧
    (∀ (b0 b1 b2 b3 : Nat) (rest : List Nat), 22 ≤ leVal [b0, b1, b2, b3] →
      wireSbfDeserialize (b0 :: b1 :: b2 :: b3 :: rest) =
        slcFallbackParse (b0 :: b1 :: b2 :: b3 :: rest)) := by
  refine ⟨?_, ?_, ?_, ?_, ?_, ?_⟩
  · intro data hne hlen
    rw [wireSbfDeserialize, if_neg hne, if_pos hlen]
  · intro data e h
    exact wireSbfDeserialize_onlyIID data e h
  · intro rest
    refine ⟨?_, ?_, ?_, ?_, ?_, ?_, ?_⟩
    · intro h
      rw [wireSbfDeserialize, if_neg (by simp), if_neg (by simp only [List.length_cons]; omega)]
      rw [show readU32 (0 :: 0 :: 0 :: 0 :: rest) 0 = .ok (0, 4) from readU32_cons4 0 0 0 0 rest]
      simp only [ebind_ok]
      unfold readPubkeyBytes readU64 rtake
      by_cases h1 : rest.length < 32
      · rw [if_pos (by simp only [List.length_cons]; omega)]
        rfl
      · rw [if_neg (by simp only [List.length_cons]; omega)]
        simp only [ebind_ok]
        by_cases h2 : rest.length < 64
        · rw [if_pos (by simp only [List.length_cons]; omega)]
          rfl
        · rw [if_neg (by simp only [List.length_cons]; omega)]
          simp only [ebind_ok]
          by_cases h3 : rest.length < 72
          · rw [if_pos (by simp only [List.length_cons]; omega)]
            rfl
          · rw [if_neg (by simp only [List.length_cons]; omega)]
            simp only [ebind_ok]
            by_cases h4 : rest.length < 80
            · rw [if_pos (by simp only [List.length_cons]; omega)]
              rfl
            · rw [if_neg (by simp only [List.length_cons]; omega)]
              simp only [ebind_ok]
              rw [if_pos (by simp only [List.length_cons]; omega)]
              rfl
    · intro h
      rw [wireSbfDeserialize, if_neg (by simp), if_neg (by simp only [List.length_cons]; omega)]
      rw [show readU32 (1 :: 0 :: 0 :: 0 :: rest) 0 = .ok (1, 4) from readU32_cons4 1 0 0 0 rest]
      simp only [ebind_ok]
      unfold readPubkeyBytes readStakeAuth readU32 rtake
      by_cases h1 : rest.length < 32
      · rw [if_pos (by simp only [List.length_cons]; omega)]
        rfl
      · rw [if_neg (by simp only [List.length_cons]; omega)]
        simp only [ebind_ok]
        rw [if_pos (by simp only [List.length_cons]; omega)]
        rfl
    · intro h
      rw [wireSbfDeserialize, if_neg (by simp), if_neg (by simp only [List.length_cons]; omega)]
      rw [show readU32 (3 :: 0 :: 0 :: 0 :: rest) 0 = .ok (3, 4) from readU32_cons4 3 0 0 0 rest]
      simp only [ebind_ok]
      unfold readU64 rtake
      rw [if_pos (by simp only [List.length_cons]; omega)]
      rfl
    · intro h
      rw [wireSbfDeserialize, if_neg (by simp), if_neg (by simp only [List.length_cons]; omega)]
      rw [show readU32 (4 :: 0 :: 0 :: 0 :: rest) 0 = .ok (4, 4) from readU32_cons4 4 0 0 0 rest]
      simp only [ebind_ok]
      unfold readU64 rtake
      rw [if_pos (by simp only [List.length_cons]; omega)]
      rfl
    · intro h
      rw [wireSbfDeserialize, if_neg (by simp), if_neg (by simp only [List.length_cons]; omega)]
      rw [show readU32 (10 :: 0 :: 0 :: 0 :: rest) 0 = .ok (10, 4) from readU32_cons4 10 0 0 0 rest]
      simp only [ebind_ok]
      unfold readStakeAuth readU32 rtake
      rw [if_pos (by simp only [List.length_cons]; omega)]
      rfl
    · intro h
      rw [wireSbfDeserialize, if_neg (by simp), if_neg (by simp only [List.length_cons]; omega)]
      rw [show readU32 (16 :: 0 :: 0 :: 0 :: rest) 0 = .ok (16, 4) from readU32_cons4 16 0 0 0 rest]
      simp only [ebind_ok]
      unfold readU64 rtake
      rw [if_pos (by simp only [List.length_cons]; omega)]
      rfl
    · intro h
      rw [wireSbfDeserialize, if_neg (by simp), if_neg (by simp only [List.length_cons]; omega)]
      rw [show readU32 (17 :: 0 :: 0 :: 0 :: rest) 0 = .ok (17, 4) from readU32_cons4 17 0 0 0 rest]
      simp only [ebind_ok]
      unfold readU64 rtake
      rw [if_pos (by simp only [List.length_cons]; omega)]
      rfl
  · intro extra
    rw [wireSbfDeserialize, if_neg (by simp), if_neg (by simp)]
    rw [show readU32 (2 :: 0 :: 0 :: 0 :: extra) 0 = .ok (2, 4) from readU32_cons4 2 0 0 0 extra]
    rfl
  · intro extra
    refine ⟨?_, ?_, ?_, ?_⟩
    · rw [wireSbfDeserialize, if_neg (by simp), if_neg (by simp)]
      rw [show readU32 (18 :: 0 :: 0 :: 0 :: extra) 0 = .ok (18, 4) from readU32_cons4 18 0 0 0 extra]
      rfl
    · rw [wireSbfDeserialize, if_neg (by simp), if_neg (by simp)]
      rw [show readU32 (19 :: 0 :: 0 :: 0 :: extra) 0 = .ok (19, 4) from readU32_cons4 19 0 0 0 extra]
      rfl
    · rw [wireSbfDeserialize, if_neg (by simp), if_neg (by simp)]
      rw [show readU32 (20 :: 0 :: 0 :: 0 :: extra) 0 = .ok (20, 4) from readU32_cons4 20 0 0 0 extra]
      rfl
    · rw [wireSbfDeserialize, if_neg (by simp), if_neg (by simp)]
      rw [show readU32 (21 :: 0 :: 0 :: 0 :: extra) 0 = .ok (21, 4) from readU32_cons4 21 0 0 0 extra]
      rfl
  · intro b0 b1 b2 b3 rest h
    rw [wireSbfDeserialize, if_neg (by simp), if_neg (by simp only [List.length_cons]; omega)]
    rw [readU32_cons4]
    simp only [ebind_ok]
    split <;> first
      | omega
      | (unfold slcFallbackParse; rfl)

/-- Witness for `wireSbfDeserialize_contract` at concrete inputs: a 1-byte
payload, an under-sized Initialize payload, a DelegateStake payload with no
trailing bytes, the discriminant 19, and the discriminant 22. -/
theorem wireSbfDeserialize_contract_witness :
    ([1] : List Nat) ≠ [] ∧ ([1] : List Nat).length < 4 ∧
    wireSbfDeserialize [1] = .error .invalidInstructionData ∧
    (ProgramError.invalidInstructionData = ProgramError.invalidInstructionData) ∧
    ([] : List Nat).length < 112 ∧
    wireSbfDeserialize [0, 0, 0, 0] = .error .invalidInstructionData ∧
    wireSbfDeserialize [2, 0, 0, 0] = .ok .delegateStake ∧
    wireSbfDeserialize [19, 0, 0, 0] = .ok .deactivateDelinquent ∧
    22 ≤ leVal [22, 0, 0, 0] ∧
    wireSbfDeserialize [22, 0, 0, 0, 0, 0] = slcFallbackParse [22, 0, 0, 0, 0, 0] :=
  ⟨by decide, by decide,
   wireSbfDeserialize_contract.1 [1] (by decide) (by decide),
   wireSbfDeserialize_contract.2.1 [1] .invalidInstructionData rfl,
   by decide,
   (wireSbfDeserialize_contract.2.2.1 []).1 (by decide),
   wireSbfDeserialize_contract.2.2.2.1 [],
   (wireSbfDeserialize_contract.2.2.2.2.1 []).2.1,
   by decide,
   wireSbfDeserialize_contract.2.2.2.2.2 22 0 0 0 [0, 0] (by decide)⟩

/-- CLAIM C8: for every input of at most 96 bytes — in particular every
seed-derivation buffer `base ‖ seed ‖ owner` with `|seed| ≤ 32` — the in-repo
`hash` computes exactly the FIPS SHA-256 digest: every fixed-buffer write is
in bounds and the padding laid out in the 192-byte buffer coincides with the
standard's padding, so seed-derived authorities equal the externally defined
create-with-seed derivation. -/
theorem sha256HashCode_eq_fips (data : List Nat) (hlen : data.length ≤ 96) :
    sha256HashCode data = some (sha256Fips data) := by
  unfold sha256HashCode sha256Fips
  dsimp only
  have hr : (data.length + 1) % 64 < 64 := Nat.mod_lt _ (by omega)
  set r := (data.length + 1) % 64 with hrdef
  set p := (if r ≤ 56 then 56 - r else 64 + 56 - r) with hpdef
  have hp63 : p ≤ 63 := by rw [hpdef]; split <;> omega
  have hpk : p = (120 - r) % 64 := by rw [hpdef]; split <;> omega
  rw [if_neg (by omega), if_neg (by omega), if_neg (by omega), if_neg (by omega)]
  rw [List.take_left' (by
    simp only [paddedPrefix, beBytes, List.length_append, List.length_replicate,
      List.length_map, List.length_range, List.length_cons, List.length_nil]
    try omega)]
  rw [hpk]

/-- Witness for `sha256HashCode_eq_fips` on the 96-byte all-zero buffer. -/
theorem sha256HashCode_eq_fips_witness :
    (List.replicate 96 (0 : Nat)).length ≤ 96 ∧
    sha256HashCode (List.replicate 96 0) = some (sha256Fips (List.replicate 96 0)) :=
  ⟨by simp, sha256HashCode_eq_fips (List.replicate 96 0) (by simp)⟩

/-- CLAIM C9: for every input of at most 183 bytes — well beyond the at most
96 bytes of seed derivation — every write of `hash` stays inside the fixed
192-byte padding buffer (the `0x80` marker, the zero padding and the 8-byte
bit length all fit), so the function returns a digest without reaching the
out-of-bounds (panic) branch. -/
theorem sha256HashCode_isSome (data : List Nat) (hlen : data.length ≤ 183) :
    (sha256HashCode data).isSome = true := by
  unfold sha256HashCode
  dsimp only
  have hr : (data.length + 1) % 64 < 64 := Nat.mod_lt _ (by omega)
  have hq : data.length + 1 = 64 * ((data.length + 1) / 64) + (data.length + 1) % 64 :=
    (Nat.div_add_mod _ _).symm
  set r := (data.length + 1) % 64 with hrdef
  set p := (if r ≤ 56 then 56 - r else 64 + 56 - r) with hpdef
  have hbound : data.length + 1 + p + 8 ≤ 192 := by
    rw [hpdef]
    split <;> omega
  rw [if_neg (by omega), if_neg (by omega), if_neg (by omega), if_neg (by omega)]
  rfl

/-- Witness for `sha256HashCode_isSome` at the boundary length 183. -/
theorem sha256HashCode_isSome_witness :
    (List.replicate 183 (0 : Nat)).length ≤ 183 ∧
    (sha256HashCode (List.replicate 183 0)).isSome = true :=
  ⟨by simp, sha256HashCode_isSome (List.replicate 183 0) (by simp)⟩

/-- Witness for `getIfMergeable_deactivation_scheduled` at concrete inputs. -/
theorem getIfMergeable_deactivation_scheduled_witness :
    ({ delegation := { voterPubkey := 9, stake := 5, activationEpoch := 0, deactivationEpoch := 7 },
       creditsObserved := 0 } : Stake).delegation.deactivationEpoch ≠ U64MAX ∧
    MergeKind.getIfMergeable (fun _ _ => ⟨0, 0, 0⟩)
      (.stake { rentExemptReserve := 1, authorized := ⟨2, 3⟩, lockup := Lockup.default }
        { delegation := { voterPubkey := 9, stake := 5, activationEpoch := 0, deactivationEpoch := 7 },
          creditsObserved := 0 } 0)
      10 { epoch := 8, unixTimestamp := 0 } =
      .ok (.inactive { rentExemptReserve := 1, authorized := ⟨2, 3⟩, lockup := Lockup.default } 10 0) := by
  refine ⟨by decide, ?_⟩
  exact (getIfMergeable_deactivation_scheduled (fun _ _ => ⟨0, 0, 0⟩)
    { rentExemptReserve := 1, authorized := ⟨2, 3⟩, lockup := Lockup.default }
    { delegation := { voterPubkey := 9, stake := 5, activationEpoch := 0, deactivationEpoch := 7 },
      creditsObserved := 0 } 0 10 { epoch := 8, unixTimestamp := 0 } (by decide)).2 (by decide)

end PStake
